import Mathlib

/-!
# Verification of the Nebula Python SDK memory-write client

Shallow embedding of `src/python/nebula/client.py`, `async_client.py` and
`models.py`. Python runtime values that can appear in request payloads and
JSON response bodies are modelled by the inductive type `PVal`; Python dicts
are association lists with Python's insertion-order update semantics.
-/

namespace Nebula

/-- A Python value as it appears in SDK payloads and JSON bodies:
strings, ints, floats (modelled as rationals), bools, `None`, lists,
dicts, and content-part dataclass instances (`ImageContent` etc., which the
client detects via `__dataclass_fields__` and converts field-by-field). -/
inductive PVal where
  | str (s : String)
  | int (n : Int)
  | flt (q : Rat)
  | bool (b : Bool)
  | null
  | list (xs : List PVal)
  | dict (kvs : List (String × PVal))
  | dataclass (fields : List (String × PVal))
deriving Repr

mutual

/-- Decidable equality on `PVal` (the derive handler does not support this
nested inductive, so it is spelled out). -/
def PVal.decEq : (a b : PVal) → Decidable (a = b)
  | .str s, .str t =>
    if h : s = t then .isTrue (by rw [h]) else .isFalse (by intro hc; cases hc; exact h rfl)
  | .int m, .int n =>
    if h : m = n then .isTrue (by rw [h]) else .isFalse (by intro hc; cases hc; exact h rfl)
  | .flt p, .flt q =>
    if h : p = q then .isTrue (by rw [h]) else .isFalse (by intro hc; cases hc; exact h rfl)
  | .bool a, .bool b =>
    if h : a = b then .isTrue (by rw [h]) else .isFalse (by intro hc; cases hc; exact h rfl)
  | .null, .null => .isTrue rfl
  | .list xs, .list ys =>
    match PVal.decEqList xs ys with
    | .isTrue h => .isTrue (by rw [h])
    | .isFalse h => .isFalse (by intro hc; cases hc; exact h rfl)
  | .dict xs, .dict ys =>
    match PVal.decEqKVs xs ys with
    | .isTrue h => .isTrue (by rw [h])
    | .isFalse h => .isFalse (by intro hc; cases hc; exact h rfl)
  | .dataclass xs, .dataclass ys =>
    match PVal.decEqKVs xs ys with
    | .isTrue h => .isTrue (by rw [h])
    | .isFalse h => .isFalse (by intro hc; cases hc; exact h rfl)
  | .str _, .int _ => .isFalse (by intro hc; cases hc)
  | .str _, .flt _ => .isFalse (by intro hc; cases hc)
  | .str _, .bool _ => .isFalse (by intro hc; cases hc)
  | .str _, .null => .isFalse (by intro hc; cases hc)
  | .str _, .list _ => .isFalse (by intro hc; cases hc)
  | .str _, .dict _ => .isFalse (by intro hc; cases hc)
  | .str _, .dataclass _ => .isFalse (by intro hc; cases hc)
  | .int _, .str _ => .isFalse (by intro hc; cases hc)
  | .int _, .flt _ => .isFalse (by intro hc; cases hc)
  | .int _, .bool _ => .isFalse (by intro hc; cases hc)
  | .int _, .null => .isFalse (by intro hc; cases hc)
  | .int _, .list _ => .isFalse (by intro hc; cases hc)
  | .int _, .dict _ => .isFalse (by intro hc; cases hc)
  | .int _, .dataclass _ => .isFalse (by intro hc; cases hc)
  | .flt _, .str _ => .isFalse (by intro hc; cases hc)
  | .flt _, .int _ => .isFalse (by intro hc; cases hc)
  | .flt _, .bool _ => .isFalse (by intro hc; cases hc)
  | .flt _, .null => .isFalse (by intro hc; cases hc)
  | .flt _, .list _ => .isFalse (by intro hc; cases hc)
  | .flt _, .dict _ => .isFalse (by intro hc; cases hc)
  | .flt _, .dataclass _ => .isFalse (by intro hc; cases hc)
  | .bool _, .str _ => .isFalse (by intro hc; cases hc)
  | .bool _, .int _ => .isFalse (by intro hc; cases hc)
  | .bool _, .flt _ => .isFalse (by intro hc; cases hc)
  | .bool _, .null => .isFalse (by intro hc; cases hc)
  | .bool _, .list _ => .isFalse (by intro hc; cases hc)
  | .bool _, .dict _ => .isFalse (by intro hc; cases hc)
  | .bool _, .dataclass _ => .isFalse (by intro hc; cases hc)
  | .null, .str _ => .isFalse (by intro hc; cases hc)
  | .null, .int _ => .isFalse (by intro hc; cases hc)
  | .null, .flt _ => .isFalse (by intro hc; cases hc)
  | .null, .bool _ => .isFalse (by intro hc; cases hc)
  | .null, .list _ => .isFalse (by intro hc; cases hc)
  | .null, .dict _ => .isFalse (by intro hc; cases hc)
  | .null, .dataclass _ => .isFalse (by intro hc; cases hc)
  | .list _, .str _ => .isFalse (by intro hc; cases hc)
  | .list _, .int _ => .isFalse (by intro hc; cases hc)
  | .list _, .flt _ => .isFalse (by intro hc; cases hc)
  | .list _, .bool _ => .isFalse (by intro hc; cases hc)
  | .list _, .null => .isFalse (by intro hc; cases hc)
  | .list _, .dict _ => .isFalse (by intro hc; cases hc)
  | .list _, .dataclass _ => .isFalse (by intro hc; cases hc)
  | .dict _, .str _ => .isFalse (by intro hc; cases hc)
  | .dict _, .int _ => .isFalse (by intro hc; cases hc)
  | .dict _, .flt _ => .isFalse (by intro hc; cases hc)
  | .dict _, .bool _ => .isFalse (by intro hc; cases hc)
  | .dict _, .null => .isFalse (by intro hc; cases hc)
  | .dict _, .list _ => .isFalse (by intro hc; cases hc)
  | .dict _, .dataclass _ => .isFalse (by intro hc; cases hc)
  | .dataclass _, .str _ => .isFalse (by intro hc; cases hc)
  | .dataclass _, .int _ => .isFalse (by intro hc; cases hc)
  | .dataclass _, .flt _ => .isFalse (by intro hc; cases hc)
  | .dataclass _, .bool _ => .isFalse (by intro hc; cases hc)
  | .dataclass _, .null => .isFalse (by intro hc; cases hc)
  | .dataclass _, .list _ => .isFalse (by intro hc; cases hc)
  | .dataclass _, .dict _ => .isFalse (by intro hc; cases hc)

/-- Decidable equality on lists of `PVal`. -/
def PVal.decEqList : (a b : List PVal) → Decidable (a = b)
  | [], [] => .isTrue rfl
  | [], _ :: _ => .isFalse (by intro hc; cases hc)
  | _ :: _, [] => .isFalse (by intro hc; cases hc)
  | x :: xt, y :: yt =>
    match PVal.decEq x y, PVal.decEqList xt yt with
    | .isTrue h1, .isTrue h2 => .isTrue (by rw [h1, h2])
    | .isFalse h1, _ => .isFalse (by intro hc; injection hc; exact h1 (by assumption))
    | _, .isFalse h2 => .isFalse (by intro hc; injection hc; exact h2 (by assumption))

/-- Decidable equality on string-keyed association lists of `PVal`. -/
def PVal.decEqKVs : (a b : List (String × PVal)) → Decidable (a = b)
  | [], [] => .isTrue rfl
  | [], _ :: _ => .isFalse (by intro hc; cases hc)
  | _ :: _, [] => .isFalse (by intro hc; cases hc)
  | (k1, v1) :: xt, (k2, v2) :: yt =>
    match String.decEq k1 k2, PVal.decEq v1 v2, PVal.decEqKVs xt yt with
    | .isTrue h0, .isTrue h1, .isTrue h2 => .isTrue (by rw [h0, h1, h2])
    | .isFalse h0, _, _ => .isFalse (by intro hc; cases hc; exact h0 rfl)
    | _, .isFalse h1, _ => .isFalse (by intro hc; cases hc; exact h1 rfl)
    | _, _, .isFalse h2 => .isFalse (by intro hc; cases hc; exact h2 rfl)

end

instance : DecidableEq PVal := PVal.decEq

/-- A Python dict: an association list in insertion order (keys unique in
actual Python dicts; operations below use first-occurrence semantics). -/
abbrev Dict := List (String × PVal)

/-- `d.get(k)` — `None` when the key is absent. -/
def dget? (d : Dict) (k : String) : Option PVal :=
  match d with
  | [] => none
  | (k', v) :: t => if k' = k then some v else dget? t k

/-- `d.get(k, default)`. -/
def dgetD (d : Dict) (k : String) (default : PVal) : PVal :=
  (dget? d k).getD default

/-- `k in d`. -/
def dhas (d : Dict) (k : String) : Bool :=
  match d with
  | [] => false
  | (k', _) :: t => k' = k || dhas t k

/-- `d[k] = v`: replace the value at the first occurrence of `k`, keeping its
position, or append `(k, v)` when `k` is absent — Python dict assignment. -/
def dset (d : Dict) (k : String) (v : PVal) : Dict :=
  match d with
  | [] => [(k, v)]
  | (k', v') :: t => if k' = k then (k, v) :: t else (k', v') :: dset t k v

/-- `d.update(e)`: assign each pair of `e` in order. -/
def dupdate (d : Dict) (e : Dict) : Dict :=
  e.foldl (fun acc p => dset acc p.1 p.2) d

/-- Python truthiness of a value: `"" 0 0.0 False None [] {}` are falsy. -/
def truthy : PVal → Bool
  | .str s => s ≠ ""
  | .int n => n ≠ 0
  | .flt q => q ≠ 0
  | .bool b => b
  | .null => false
  | .list xs => !xs.isEmpty
  | .dict kvs => !kvs.isEmpty
  | .dataclass _ => true

/-- Truthiness of an optional string attribute (`None` and `""` are falsy). -/
def strTruthy : Option String → Bool
  | none => false
  | some s => s ≠ ""

mutual

/-- Python `repr(v)`. Scalar renderings follow CPython exactly; container
renderings approximate CPython's `repr` form (no claim depends on the exact
text of a stringified container, only on determinism). -/
def pyRepr : PVal → String
  | .str s => "\x27" ++ s ++ "\x27"
  | .int n => toString n
  | .flt q => toString q
  | .bool true => "True"
  | .bool false => "False"
  | .null => "None"
  | .list xs => "[" ++ pyReprList xs ++ "]"
  | .dict kvs => "\x7b" ++ pyReprKVs kvs ++ "\x7d"
  | .dataclass fs => "ContentPart(" ++ pyReprKVs fs ++ ")"

/-- Comma-separated `repr`s of list elements. -/
def pyReprList : List PVal → String
  | [] => ""
  | [x] => pyRepr x
  | x :: y :: t => pyRepr x ++ ", " ++ pyReprList (y :: t)

/-- Comma-separated `key: repr(value)` pairs of a dict. -/
def pyReprKVs : List (String × PVal) → String
  | [] => ""
  | [(k, v)] => "\x27" ++ k ++ "\x27: " ++ pyRepr v
  | (k, v) :: p :: t => "\x27" ++ k ++ "\x27: " ++ pyRepr v ++ ", " ++ pyReprKVs (p :: t)

end

/-- Python `str(v)`: identity on strings, otherwise the same text as `repr`
(which is how CPython renders the other scalars and containers). -/
def pyStr : PVal → String
  | .str s => s
  | .int n => toString n
  | .flt q => toString q
  | .bool true => "True"
  | .bool false => "False"
  | .null => "None"
  | .list xs => "[" ++ pyReprList xs ++ "]"
  | .dict kvs => "\x7b" ++ pyReprKVs kvs ++ "\x7d"
  | .dataclass fs => "ContentPart(" ++ pyReprKVs fs ++ ")"

/-- `str(m.content or "")` as used throughout the client: the empty string for
falsy content, `str(content)` otherwise. -/
def pyStrOrEmpty (v : PVal) : String :=
  if truthy v then pyStr v else ""

/-! ## SHA-256 (`hashlib.sha256(text.encode("utf-8")).hexdigest()`)

A complete executable SHA-256 over `Nat` byte lists (all word arithmetic is
explicitly reduced mod `2 ^ 32`), together with a UTF-8 encoder, so the
`content_hash` metadata written by `store_memory` is modelled exactly. -/

namespace SHA256

/-- Rotate a 32-bit word right by `n` (input assumed `< 2 ^ 32`). -/
def rotr (n x : Nat) : Nat := (x >>> n) + ((x % 2 ^ n) <<< (32 - n))

/-- SHA-256 `Ch` function. -/
def ch (x y z : Nat) : Nat := (x &&& y) ^^^ ((x ^^^ 0xFFFFFFFF) &&& z)

/-- SHA-256 `Maj` function. -/
def maj (x y z : Nat) : Nat := (x &&& y) ^^^ (x &&& z) ^^^ (y &&& z)

/-- SHA-256 `Σ0`. -/
def bigSigma0 (x : Nat) : Nat := rotr 2 x ^^^ rotr 13 x ^^^ rotr 22 x

/-- SHA-256 `Σ1`. -/
def bigSigma1 (x : Nat) : Nat := rotr 6 x ^^^ rotr 11 x ^^^ rotr 25 x

/-- SHA-256 `σ0`. -/
def smallSigma0 (x : Nat) : Nat := rotr 7 x ^^^ rotr 18 x ^^^ (x >>> 3)

/-- SHA-256 `σ1`. -/
def smallSigma1 (x : Nat) : Nat := rotr 17 x ^^^ rotr 19 x ^^^ (x >>> 10)

/-- The 64 SHA-256 round constants (FIPS 180-4 §4.2.2), written in decimal. -/
def K : List Nat :=
  [1116352408, 1899447441, 3049323471, 3921009573, 961987163,
   1508970993, 2453635748, 2870763221, 3624381080, 310598401,
   607225278, 1426881987, 1925078388, 2162078206, 2614888103,
   3248222580, 3835390401, 4022224774, 264347078, 604807628,
   770255983, 1249150122, 1555081692, 1996064986, 2554220882,
   2821834349, 2952996808, 3210313671, 3336571891, 3584528711,
   113926993, 338241895, 666307205, 773529912, 1294757372,
   1396182291, 1695183700, 1986661051, 2177026350, 2456956037,
   2730485921, 2820302411, 3259730800, 3345764771, 3516065817,
   3600352804, 4094571909, 275423344, 430227734, 506948616,
   659060556, 883997877, 958139571, 1322822218, 1537002063,
   1747873779, 1955562222, 2024104815, 2227730452, 2361852424,
   2428436474, 2756734187, 3204031479, 3329325298]

/-- The initial SHA-256 hash state (FIPS 180-4 §5.3.3), written in decimal. -/
def H0 : List Nat :=
  [1779033703, 3144134277, 1013904242, 2773480762,
   1359893119, 2600822924, 528734635, 1541459225]

/-- SHA-256 padding: append `0x80`, zeros to 56 mod 64, then the bit length
as 8 big-endian bytes. -/
def pad (msg : List Nat) : List Nat :=
  let L := msg.length
  let zeros := (119 - L % 64) % 64
  let bitLen := 8 * L
  msg ++ 0x80 :: List.replicate zeros 0 ++
    ((List.range 8).map fun i => (bitLen >>> (8 * (7 - i))) % 256)

/-- Split a padded message into 64-byte blocks. -/
def blocks (l : List Nat) : List (List Nat) :=
  match l with
  | [] => []
  | x :: t => (x :: t).take 64 :: blocks ((x :: t).drop 64)
termination_by l.length
decreasing_by
  simp only [List.length_drop, List.length_cons]
  omega

/-- The 16 initial 32-bit big-endian message-schedule words of one block. -/
def initialWords (block : List Nat) : List Nat :=
  (List.range 16).map fun i =>
    block.getD (4 * i) 0 <<< 24 + block.getD (4 * i + 1) 0 <<< 16 +
      block.getD (4 * i + 2) 0 <<< 8 + block.getD (4 * i + 3) 0

/-- Extend the message schedule by `n` further words. -/
def extendWords : Nat → List Nat → List Nat
  | 0, w => w
  | n + 1, w =>
    let len := w.length
    let nw := (smallSigma1 (w.getD (len - 2) 0) + w.getD (len - 7) 0 +
      smallSigma0 (w.getD (len - 15) 0) + w.getD (len - 16) 0) % 2 ^ 32
    extendWords n (w ++ [nw])

/-- One round of the SHA-256 compression function. -/
def round (w : List Nat) (i : Nat) (st : List Nat) : List Nat :=
  let a := st.getD 0 0
  let b := st.getD 1 0
  let c := st.getD 2 0
  let d := st.getD 3 0
  let e := st.getD 4 0
  let f := st.getD 5 0
  let g := st.getD 6 0
  let h := st.getD 7 0
  let t1 := (h + bigSigma1 e + ch e f g + K.getD i 0 + w.getD i 0) % 2 ^ 32
  let t2 := (bigSigma0 a + maj a b c) % 2 ^ 32
  [(t1 + t2) % 2 ^ 32, a, b, c, (d + t1) % 2 ^ 32, e, f, g]

/-- Compress one 64-byte block into the running hash state. -/
def compress (hs : List Nat) (block : List Nat) : List Nat :=
  let w := extendWords 48 (initialWords block)
  let st := (List.range 64).foldl (fun st i => round w i st) hs
  (List.zip hs st).map fun p => (p.1 + p.2) % 2 ^ 32

/-- SHA-256 of a byte list: the 32 digest bytes. -/
def sha256 (msg : List Nat) : List Nat :=
  let hs := (blocks (pad msg)).foldl compress H0
  hs.foldr (fun h acc =>
    (h >>> 24) % 256 :: (h >>> 16) % 256 :: (h >>> 8) % 256 :: h % 256 :: acc) []

/-- One lowercase hex digit. -/
def hexDigit (n : Nat) : String :=
  ["0", "1", "2", "3", "4", "5", "6", "7",
   "8", "9", "a", "b", "c", "d", "e", "f"].getD n "0"

/-- Lowercase hex string of a byte list (`.hexdigest()`). -/
def hexOfBytes (bs : List Nat) : String :=
  bs.foldr (fun b acc => hexDigit (b / 16) ++ hexDigit (b % 16) ++ acc) ""

end SHA256

/-- UTF-8 encoding of one character. -/
def utf8Char (c : Char) : List Nat :=
  let n := c.toNat
  if n < 0x80 then [n]
  else if n < 0x800 then [0xC0 + n / 64, 0x80 + n % 64]
  else if n < 0x10000 then
    [0xE0 + n / 4096, 0x80 + n / 64 % 64, 0x80 + n % 64]
  else
    [0xF0 + n / 262144, 0x80 + n / 4096 % 64, 0x80 + n / 64 % 64, 0x80 + n % 64]

/-- `text.encode("utf-8")` as a byte list. -/
def utf8Encode (s : String) : List Nat :=
  (s.data.map utf8Char).flatten

/-- `hashlib.sha256(text.encode("utf-8")).hexdigest()`. -/
def sha256hex (s : String) : String :=
  SHA256.hexOfBytes (SHA256.sha256 (utf8Encode s))

/-! ## Error taxonomy and HTTP model -/

/-- Modelled from the spec: the SDK's exception module (`nebula/exceptions.py`)
is imported by the clients but absent from the sources; §7 of the spec fixes the
taxonomy (ClientError, AuthenticationError, RateLimitError, ValidationError
with optional structured details, NotFoundError naming identifier and entity
kind, and a catch-all ApiError carrying status and raw body), and the
constructor shapes match every raise site in `client.py`/`async_client.py`.
`pyRuntimeErr` stands for a plain Python runtime error (e.g. an
`AttributeError` on a malformed response body), `decodeErr` for
`json.JSONDecodeError` on an empty success body. -/
inductive NebErr where
  | clientErr (msg : String)
  | authErr (msg : String)
  | rateLimitErr (msg : String)
  | validationErr (message : PVal) (details : Option Dict)
  | notFoundErr (entityId : String) (entityKind : String)
  | apiErr (message : PVal) (status : Nat) (body : Dict)
  | decodeErr
  | pyRuntimeErr
deriving DecidableEq, Repr

/-- An HTTP response as the client observes it: status code and, when the
response has content, its parsed JSON object body. -/
structure HttpResp where
  status : Nat
  body : Option Dict
deriving DecidableEq, Repr

/-- `Nebula._make_request` / `AsyncNebula._make_request_async` response
handling (client.py lines 134-157, async_client.py lines 127-149): 200/202
parse and return the body; 401, 429 and 400 map to the specific errors (400
keeps `details` only when it is a dict); every other status raises the generic
API error with the status code and raw error body. -/
def handleResponse (r : HttpResp) : Except NebErr Dict :=
  if r.status = 200 ∨ r.status = 202 then
    match r.body with
    | some d => .ok d
    | none => .error .decodeErr
  else if r.status = 401 then .error (.authErr "Invalid API key")
  else if r.status = 429 then .error (.rateLimitErr "Rate limit exceeded")
  else if r.status = 400 then
    let errorData := r.body.getD []
    let details : Option Dict :=
      match dget? errorData "details" with
      | some (.dict m) => some m
      | _ => none
    .error (.validationErr (dgetD errorData "message" (.str "Validation error")) details)
  else
    let errorData := r.body.getD []
    .error (.apiErr (dgetD errorData "message" (.str ("API error: " ++ toString r.status)))
      r.status errorData)

/-- The endpoints the memory-write paths touch. -/
inductive Endpoint where
  | memories
  | memAppend (memoryId : String)
  | memPatch (memoryId : String)
deriving DecidableEq, Repr

/-- One outgoing HTTP request: method, endpoint, body (JSON payload, or the
form fields of a multipart request when `multipart` is set — `json.dumps` on
individual form fields is elided, the field's structured value is recorded). -/
structure Request where
  method : String
  endpoint : Endpoint
  body : Dict
  multipart : Bool := false
deriving DecidableEq, Repr

/-- Client-side execution state: the requests issued so far, and the remaining
scripted server responses (consumed in order; running out of responses behaves
like a transport failure, which the clients wrap into the client error). -/
structure ClientState where
  sent : List Request
  pending : List HttpResp
deriving DecidableEq, Repr

/-- Issue a request through `_make_request`'s status handling. -/
def send (req : Request) (st : ClientState) : Except NebErr Dict × ClientState :=
  match st.pending with
  | [] => (.error (.clientErr "Failed to connect"), ⟨st.sent ++ [req], []⟩)
  | r :: rest => (handleResponse r, ⟨st.sent ++ [req], rest⟩)

/-- Issue a request through the async client's raw `httpx` post path
(async_client.py lines 398-412 and 476-485): any non-2xx status raises the
generic API error built from the body, with a site-specific default message
prefix followed by the status code. -/
def sendRaw (defaultMsgPrefix : String) (req : Request) (st : ClientState) :
    Except NebErr Dict × ClientState :=
  match st.pending with
  | [] => (.error (.clientErr "Failed to connect"), ⟨st.sent ++ [req], []⟩)
  | r :: rest =>
    let res : Except NebErr Dict :=
      if r.status = 200 ∨ r.status = 202 then
        match r.body with
        | some d => .ok d
        | none => .error .decodeErr
      else
        let errorData := r.body.getD []
        .error (.apiErr (dgetD errorData "message"
          (.str (defaultMsgPrefix ++ toString r.status))) r.status errorData)
    (res, ⟨st.sent ++ [req], rest⟩)

/-! ## The Write Request model (`models.Memory`) -/

/-- `models.Memory`: the unified write-request input. `metadata` is `Option`
because Python callers may pass `None` explicitly (the dataclass default is
`{}`, i.e. `some []`); `authority` (a float) is modelled as a rational. -/
structure Memory where
  collection_id : String
  content : PVal
  role : Option String := none
  memory_id : Option String := none
  metadata : Option Dict := some []
  authority : Option Rat := none
  vision_model : Option String := none
  audio_model : Option String := none
  fast_mode : Option Bool := none
deriving Repr

/-- `memory.metadata or {}`. -/
def metaOrEmpty : Option Dict → Dict
  | none => []
  | some d => d

/-- An optional metadata attribute as the raw Python value (`None` ↦ null). -/
def metaVal : Option Dict → PVal
  | none => .null
  | some d => .dict d

/-- An optional role attribute as the raw Python value. -/
def roleVal : Option String → PVal
  | none => .null
  | some s => .str s

/-- Python `a or b` on values. -/
def pyOr (a b : PVal) : PVal := if truthy a then a else b

/-- Python `s.startswith(pre)`: the first `len(pre)` characters of `s` equal
`pre`. -/
def pyStartsWith (s pre : String) : Bool := s.data.take pre.data.length = pre.data

/-- `isinstance(v, dict)`. -/
def isDict : PVal → Bool
  | .dict _ => true
  | _ => false

/-! ## Append (`_append_to_memory`) -/

/-- The append payload of `Nebula._append_to_memory` (client.py lines
760-790): `collection_id` plus exactly one of `messages` (a list whose first
element is a dict), `chunks` (any other list), `messages` wrapping a plain
string with the role when the request carries a role, or `raw_text` (a plain
role-less string); any other content shape raises the client error. `metadata`
is attached when not `None`. -/
def appendPayloadSync (m : Memory) : Except NebErr Dict :=
  let payload : Dict := [("collection_id", .str m.collection_id)]
  let addMeta : Dict → Dict := fun p =>
    match m.metadata with
    | some md => dset p "metadata" (.dict md)
    | none => p
  match m.content with
  | .list xs =>
    if (xs.head?.map isDict).getD false then
      .ok (addMeta (dset payload "messages" (.list xs)))
    else
      .ok (addMeta (dset payload "chunks" (.list xs)))
  | .str s =>
    if strTruthy m.role then
      .ok (addMeta (dset payload "messages"
        (.list [.dict [("content", .str s), ("role", roleVal m.role)]])))
    else
      .ok (addMeta (dset payload "raw_text" (.str s)))
  | _ => .error (.clientErr "content must be a string, list of strings, or list of message dicts")

/-- The append payload of `AsyncNebula._append_to_memory` (async_client.py
lines 511-533): as the sync one, except a plain string is always sent as
`raw_text` — the async client never wraps a role-bearing string into a
message. -/
def appendPayloadAsync (m : Memory) : Except NebErr Dict :=
  let payload : Dict := [("collection_id", .str m.collection_id)]
  let addMeta : Dict → Dict := fun p =>
    match m.metadata with
    | some md => dset p "metadata" (.dict md)
    | none => p
  match m.content with
  | .list xs =>
    if (xs.head?.map isDict).getD false then
      .ok (addMeta (dset payload "messages" (.list xs)))
    else
      .ok (addMeta (dset payload "chunks" (.list xs)))
  | .str s => .ok (addMeta (dset payload "raw_text" (.str s)))
  | _ => .error (.clientErr "content must be a string, list of strings, or list of message dicts")

/-- Convert the error of a failed append call: a `NebulaException` whose
status is 404 becomes `NebulaNotFoundException(memory_id, "Memory")`; every
other error propagates unchanged. (Only the generic API error carries an
arbitrary status; the 401/429/400 errors never have status 404, so this is
exactly the code's `except NebulaException ... if e.status_code == 404`.) -/
def convert404 (memoryId : String) : NebErr → NebErr
  | .apiErr msg status body =>
    if status = 404 then .notFoundErr memoryId "Memory" else .apiErr msg status body
  | e => e

/-- `Nebula._append_to_memory` (client.py lines 747-802): build the payload,
POST it to `/v1/memories/{memory_id}/append`, return the same id on success,
convert a 404 into the not-found error naming the id and entity kind. -/
def appendToMemorySync (memoryId : String) (m : Memory) (st : ClientState) :
    Except NebErr String × ClientState :=
  match appendPayloadSync m with
  | .error e => (.error e, st)
  | .ok payload =>
    match send ⟨"POST", .memAppend memoryId, payload, false⟩ st with
    | (.ok _, st') => (.ok memoryId, st')
    | (.error e, st') => (.error (convert404 memoryId e), st')

/-- `AsyncNebula._append_to_memory` (async_client.py lines 494-545). -/
def appendToMemoryAsync (memoryId : String) (m : Memory) (st : ClientState) :
    Except NebErr String × ClientState :=
  match appendPayloadAsync m with
  | .error e => (.error e, st)
  | .ok payload =>
    match send ⟨"POST", .memAppend memoryId, payload, false⟩ st with
    | (.ok _, st') => (.ok memoryId, st')
    | (.error e, st') => (.error (convert404 memoryId e), st')

/-! ## `store_memory` -/

/-- The sync client's multimodal test for conversation content (client.py
lines 624-629): a non-empty list whose first element is a dict carrying a
`type` key. -/
def isMultimodalConv : PVal → Bool
  | .list (.dict d :: _) => dhas d "type"
  | _ => false

/-- `store_memories`' multimodal test (client.py lines 850-857): as
`isMultimodalConv`, but a dataclass content part as first element also
qualifies (`hasattr(content[0], "__dataclass_fields__")`). -/
def isMultimodalBatch : PVal → Bool
  | .list (.dict d :: _) => dhas d "type"
  | .list (.dataclass _ :: _) => true
  | _ => false

/-- Convert one content part to API format (client.py lines 703-715 and
862-869): a dataclass becomes the dict of its fields, a dict passes through,
anything else is wrapped as `{type: "text", text: str(part)}`. -/
def partToAPI : PVal → PVal
  | .dataclass fs => .dict fs
  | .dict d => .dict d
  | p => .dict [("type", .str "text"), ("text", .str (pyStr p))]

/-- Extract the document id from a create-memory response (client.py lines
740-745, async lines 487-492): `results.engram_id`, else `results.id`, else
the empty string; the empty string also when no `results` key is present.
A non-dict `results` value is a Python runtime error at the `in` test. -/
def extractDocId (response : Dict) : Except NebErr String :=
  match dget? response "results" with
  | some (.dict r) =>
    if dhas r "engram_id" then .ok (pyStr (dgetD r "engram_id" .null))
    else if dhas r "id" then .ok (pyStr (dgetD r "id" .null))
    else .ok ""
  | some _ => .error .pyRuntimeErr
  | none => .ok ""

/-- The first inline message of the sync conversation-create payload
(client.py lines 631-642): role, content (multimodal content kept as-is,
other content stringified), metadata, and the optional authority. -/
def firstMsgSync (m : Memory) : Dict :=
  let msg : Dict :=
    [("role", roleVal m.role),
     ("content", if isMultimodalConv m.content then m.content else .str (pyStr m.content)),
     ("metadata", .dict (metaOrEmpty m.metadata))]
  match m.authority with
  | some a => dset msg "authority" (.flt a)
  | none => msg

/-- The inline message list of the sync conversation create (client.py lines
631-642): the single first message when content and role are truthy, empty
otherwise. -/
def convMessagesSync (m : Memory) : List PVal :=
  if truthy m.content && strTruthy m.role then [.dict (firstMsgSync m)] else []

/-- The sync conversation-create payload (client.py lines 644-661). -/
def convCreatePayloadSync (m : Memory) (name : Option String) : Dict :=
  let isMM := isMultimodalConv m.content
  let payload : Dict :=
    [("collection_ref", .str m.collection_id), ("engram_type", .str "conversation"),
     ("messages", .list (convMessagesSync m)), ("metadata", .dict (metaOrEmpty m.metadata))]
  let payload := if strTruthy name then dset payload "name" (.str (name.getD "")) else payload
  let payload := if isMM && strTruthy m.vision_model then
    dset payload "vision_model" (.str (m.vision_model.getD "")) else payload
  let payload := if isMM && strTruthy m.audio_model then
    dset payload "audio_model" (.str (m.audio_model.getD "")) else payload
  if isMM && m.fast_mode.isSome then
    dset payload "fast_mode" (.bool (m.fast_mode.getD false)) else payload

/-- The sync document metadata (client.py lines 679-689): a copy of the
request metadata with `memory_type`, plus the authority when it is in range
(out-of-range authority is silently dropped). -/
def docMetadataSync (metadata : Option Dict) (authority : Option Rat) : Dict :=
  let docMetadata := dset (metaOrEmpty metadata) "memory_type" (.str "memory")
  match authority with
  | some a => if 0 ≤ a ∧ a ≤ 1 then dset docMetadata "authority" (.flt a) else docMetadata
  | none => docMetadata

/-- The sync document-create payload (client.py lines 691-736): multimodal
list content becomes `content_parts` plus the model options; any other content
is stringified, rejected when empty, hashed into `metadata.content_hash`, and
sent as `raw_text`. -/
def docPayloadSync (m : Memory) : Except NebErr Dict :=
  match m.content with
  | .list xs =>
    let payload : Dict :=
      [("collection_ref", .str m.collection_id), ("engram_type", .str "document"),
       ("metadata", .dict (docMetadataSync m.metadata m.authority)), ("ingestion_mode", .str "fast"),
       ("content_parts", .list (xs.map partToAPI))]
    let payload := if strTruthy m.vision_model then
      dset payload "vision_model" (.str (m.vision_model.getD "")) else payload
    let payload := if strTruthy m.audio_model then
      dset payload "audio_model" (.str (m.audio_model.getD "")) else payload
    .ok (if m.fast_mode.isSome then
      dset payload "fast_mode" (.bool (m.fast_mode.getD false)) else payload)
  | c =>
    let contentText := pyStrOrEmpty c
    if contentText = "" then .error (.clientErr "Content is required for document memories")
    else
      .ok [("collection_ref", .str m.collection_id), ("engram_type", .str "document"),
           ("metadata", .dict (dset (docMetadataSync m.metadata m.authority) "content_hash"
             (.str (sha256hex contentText)))),
           ("ingestion_mode", .str "fast"), ("raw_text", .str contentText)]

/-- `Nebula.store_memory` (client.py lines 565-745). A truthy `memory_id`
appends; a truthy `role` creates a conversation via one JSON POST to
`/v1/memories` whose payload carries the first message inline in `messages`
(empty when content or role is falsy); otherwise a document is created. -/
def storeMemorySync (m : Memory) (name : Option String) (st : ClientState) :
    Except NebErr String × ClientState :=
  if strTruthy m.memory_id then appendToMemorySync (m.memory_id.getD "") m st
  else if strTruthy m.role then
    match send ⟨"POST", .memories, convCreatePayloadSync m name, false⟩ st with
    | (.error e, st') => (.error e, st')
    | (.ok response, st') =>
      match dget? response "results" with
      | some (.dict res) =>
        let convId := pyOr (dgetD res "id" .null) (dgetD res "engram_id" .null)
        if truthy convId then (.ok (pyStr convId), st')
        else (.error (.clientErr "Failed to create conversation: no id returned"), st')
      | some _ => (.error .pyRuntimeErr, st')
      | none => (.error (.clientErr "Failed to create conversation: invalid response format"), st')
  else
    match docPayloadSync m with
    | .error e => (.error e, st)
    | .ok payload =>
      match send ⟨"POST", .memories, payload, false⟩ st with
      | (.error e, st') => (.error e, st')
      | (.ok response, st') => (extractDocId response, st')

/-- The async conversation-create multipart form body (async_client.py lines
384-389). -/
def asyncConvCreateBody (m : Memory) (name : Option String) : Dict :=
  [("engram_type", .str "conversation"),
   ("name", .str (if strTruthy name then name.getD "" else "Conversation")),
   ("metadata", .dict (metaOrEmpty m.metadata)),
   ("collection_ids", .list [.str m.collection_id])]

/-- The async first-message dict (async_client.py lines 425-438): content
stringified, the raw role and metadata values, and the optional authority. -/
def asyncFirstMsg (m : Memory) : Dict :=
  let msg : Dict :=
    [("content", .str (pyStr m.content)), ("role", roleVal m.role),
     ("metadata", metaVal m.metadata)]
  match m.authority with
  | some a => dset msg "authority" (.flt a)
  | none => msg

/-- The async document metadata (async_client.py lines 455-465): a copy of
the request metadata with `memory_type`, the content hash, and the authority
when it is in range. -/
def asyncHashMeta (md : Dict) (auth : Option Rat) (hash : String) : Dict :=
  let docMetadata := dset (dset md "memory_type" (.str "memory")) "content_hash" (.str hash)
  match auth with
  | some a => if 0 ≤ a ∧ a ≤ 1 then dset docMetadata "authority" (.flt a) else docMetadata
  | none => docMetadata

/-- The async document multipart form body (async_client.py lines 449-472):
stringified content, rejected when empty, hashed into
`metadata.content_hash`. -/
def asyncDocBody (m : Memory) : Except NebErr Dict :=
  let contentText := pyStrOrEmpty m.content
  if contentText = "" then .error (.clientErr "Content is required for document memories")
  else
    .ok [("metadata", .dict (asyncHashMeta (metaOrEmpty m.metadata) m.authority
           (sha256hex contentText))),
         ("ingestion_mode", .str "fast"),
         ("collection_ids", .list [.str m.collection_id]),
         ("raw_text", .str contentText)]

/-- `AsyncNebula.store_memory` (async_client.py lines 321-492). A truthy
`memory_id` appends. A truthy `role` creates the conversation with a
multipart form POST carrying no content, then — when content and role are
truthy — issues a second, separate append of the single first message;
`str(UUID(...))` normalization of the collection id is modelled as identity.
A document stringifies any content (`str(content or "")`), hashes it into
`metadata.content_hash`, and sends one multipart form POST. -/
def storeMemoryAsync (m : Memory) (name : Option String) (st : ClientState) :
    Except NebErr String × ClientState :=
  if strTruthy m.memory_id then appendToMemoryAsync (m.memory_id.getD "") m st
  else if strTruthy m.role then
    match sendRaw "Failed to create conversation: "
        ⟨"POST", .memories, asyncConvCreateBody m name, true⟩ st with
    | (.error e, st') => (.error e, st')
    | (.ok respData, st') =>
      match dget? respData "results" with
      | some (.dict res) =>
        let convId := pyOr (dgetD res "engram_id" .null) (dgetD res "id" .null)
        if truthy convId then
          if truthy m.content && strTruthy m.role then
            let appendMem : Memory :=
              { collection_id := m.collection_id, content := .list [.dict (asyncFirstMsg m)],
                memory_id := some (pyStr convId), metadata := some [] }
            match appendToMemoryAsync (pyStr convId) appendMem st' with
            | (.ok _, st'') => (.ok (pyStr convId), st'')
            | (.error e, st'') => (.error e, st'')
          else (.ok (pyStr convId), st')
        else (.error (.clientErr "Failed to create conversation: no id returned"), st')
      | some _ => (.error .pyRuntimeErr, st')
      | none => (.error (.clientErr "Failed to create conversation: invalid response format"), st')
  else
    match asyncDocBody m with
    | .error e => (.error e, st)
    | .ok body =>
      match sendRaw "Failed to create engram: " ⟨"POST", .memories, body, true⟩ st with
      | (.error e, st') => (.error e, st')
      | (.ok respData, st') => (extractDocId respData, st')

/-! ## `store_memories` (the batch grouper) -/

/-- `conv_groups.setdefault(key, []).append(m)`: append `m` to the existing
group for `key`, or open a new group at the end (Python dicts preserve
insertion order). -/
def addToGroups (groups : List (String × List Memory)) (key : String) (m : Memory) :
    List (String × List Memory) :=
  match groups with
  | [] => [(key, [m])]
  | (k, g) :: t => if k = key then (k, g ++ [m]) :: t else (k, g) :: addToGroups t key m

/-- The grouping key of a role-bearing request (client.py line 821):
`m.memory_id or f"__new__::{m.collection_id}"`. -/
def groupKey (m : Memory) : String :=
  if strTruthy m.memory_id then m.memory_id.getD "" else "__new__::" ++ m.collection_id

/-- The grouping pass of `store_memories` (client.py lines 816-824, async
lines 556-565): role-bearing requests go to the conversation group for their
key in input order; role-less requests collect into `others` in input order. -/
def groupStep (acc : List (String × List Memory) × List Memory) (m : Memory) :
    List (String × List Memory) × List Memory :=
  if strTruthy m.role then (addToGroups acc.1 (groupKey m) m, acc.2)
  else (acc.1, acc.2 ++ [m])

def buildGroups (ms : List Memory) : List (String × List Memory) × List Memory :=
  ms.foldl groupStep ([], [])

/-- The content of one batched message in the sync `store_memories` (client.py
lines 848-872): multimodal list content is converted part-by-part, anything
else is `str(m.content or "")`. -/
def batchMsgContentSync (m : Memory) : PVal :=
  if isMultimodalBatch m.content then
    match m.content with
    | .list xs => .list (xs.map partToAPI)
    | c => c
  else .str (pyStrOrEmpty m.content)

/-- One batched message dict of the sync `store_memories` (client.py lines
874-875). -/
def batchMsgSync (m : Memory) : PVal :=
  .dict [("content", batchMsgContentSync m), ("role", roleVal m.role),
         ("metadata", .dict (metaOrEmpty m.metadata))]

/-- One batched message dict of the async `store_memories` (async_client.py
lines 585-588): content is always `str(m.content or "")`. -/
def batchMsgAsync (m : Memory) : PVal :=
  .dict [("content", .str (pyStrOrEmpty m.content)), ("role", roleVal m.role),
         ("metadata", .dict (metaOrEmpty m.metadata))]

/-- `next((m.vision_model for m in group if m.vision_model), None)` — the
first truthy vision model in the group. -/
def firstVision (g : List Memory) : Option String :=
  match g.find? (fun m => strTruthy m.vision_model) with
  | some m => m.vision_model
  | none => none

/-- The first truthy audio model in the group. -/
def firstAudio (g : List Memory) : Option String :=
  match g.find? (fun m => strTruthy m.audio_model) with
  | some m => m.audio_model
  | none => none

/-- `next((m.fast_mode for m in group if m.fast_mode is not None), None)`. -/
def firstFast (g : List Memory) : Option Bool :=
  match g.find? (fun m => m.fast_mode.isSome) with
  | some m => m.fast_mode
  | none => none

/-- The batched append payload of the sync `store_memories` (client.py lines
877-887): collection id, the group's messages in input order, and the
group-level multimodal options (each taken from the first member that set
it). -/
def groupAppendPayloadSync (collectionId : String) (g : List Memory) : Dict :=
  let payload : Dict :=
    [("collection_id", .str collectionId), ("messages", .list (g.map batchMsgSync))]
  let payload := match firstVision g with
    | some v => dset payload "vision_model" (.str v)
    | none => payload
  let payload := match firstAudio g with
    | some a => dset payload "audio_model" (.str a)
    | none => payload
  match firstFast g with
  | some b => dset payload "fast_mode" (.bool b)
  | none => payload

/-- Process one conversation group of the sync `store_memories` (client.py
lines 827-890): for a synthetic `__new__::` key first create the conversation
through `store_memory` (empty content, placeholder role "assistant", name
"Conversation"); then POST the single batched append directly through
`_make_request` (no 404 re-interpretation on this path) and replicate the
conversation id across the group's positions. -/
def processGroupSync (key : String) (g : List Memory) (st : ClientState) :
    Except NebErr (List String) × ClientState :=
  match g with
  | [] => (.ok [], st)
  | g0 :: _ =>
    let collectionId := g0.collection_id
    let created :=
      if pyStartsWith key "__new__::" then
        storeMemorySync
          { collection_id := collectionId, content := .str "", role := some "assistant",
            memory_id := none, metadata := some [], authority := none }
          (some "Conversation") st
      else (.ok key, st)
    match created with
    | (.error e, st') => (.error e, st')
    | (.ok convId, st') =>
      match send ⟨"POST", .memAppend convId, groupAppendPayloadSync collectionId g, false⟩ st' with
      | (.ok _, st'') => (.ok (List.replicate g.length convId), st'')
      | (.error e, st'') => (.error e, st'')

/-- Process the conversation groups in insertion order, concatenating their
replicated ids. -/
def processGroupsSync :
    List (String × List Memory) → ClientState → Except NebErr (List String) × ClientState
  | [], st => (.ok [], st)
  | (k, g) :: t, st =>
    match processGroupSync k g st with
    | (.error e, st') => (.error e, st')
    | (.ok ids, st') =>
      match processGroupsSync t st' with
      | (.ok more, st'') => (.ok (ids ++ more), st'')
      | (.error e, st'') => (.error e, st'')

/-- Process the role-less requests one by one through `store_memory`. -/
def processOthersSync : List Memory → ClientState → Except NebErr (List String) × ClientState
  | [], st => (.ok [], st)
  | m :: t, st =>
    match storeMemorySync m none st with
    | (.error e, st') => (.error e, st')
    | (.ok r, st') =>
      match processOthersSync t st' with
      | (.ok more, st'') => (.ok (r :: more), st'')
      | (.error e, st'') => (.error e, st'')

/-- `Nebula.store_memories` (client.py lines 804-895): group, process every
conversation group (creates + batched appends), then process the role-less
requests individually, returning conversation results first and the role-less
results after them. -/
def storeMemoriesSync (ms : List Memory) (st : ClientState) :
    Except NebErr (List String) × ClientState :=
  let (groups, others) := buildGroups ms
  match processGroupsSync groups st with
  | (.error e, st') => (.error e, st')
  | (.ok convResults, st') =>
    match processOthersSync others st' with
    | (.ok otherResults, st'') => (.ok (convResults ++ otherResults), st'')
    | (.error e, st'') => (.error e, st'')

/-- Process one conversation group of the async `store_memories`
(async_client.py lines 568-597): create via the async `store_memory` when the
key is synthetic, then append the batched messages through
`_append_to_memory` (which, unlike the sync batch path, converts a 404 into
the not-found error). -/
def processGroupAsync (key : String) (g : List Memory) (st : ClientState) :
    Except NebErr (List String) × ClientState :=
  match g with
  | [] => (.ok [], st)
  | g0 :: _ =>
    let collectionId := g0.collection_id
    let created :=
      if pyStartsWith key "__new__::" then
        storeMemoryAsync
          { collection_id := collectionId, content := .str "", role := some "assistant",
            memory_id := none, metadata := some [], authority := none }
          (some "Conversation") st
      else (.ok key, st)
    match created with
    | (.error e, st') => (.error e, st')
    | (.ok convId, st') =>
      let appendMem : Memory :=
        { collection_id := collectionId, content := .list (g.map batchMsgAsync),
          memory_id := some convId, metadata := some [] }
      match appendToMemoryAsync convId appendMem st' with
      | (.ok _, st'') => (.ok (List.replicate g.length convId), st'')
      | (.error e, st'') => (.error e, st'')

/-- Process the async conversation groups in insertion order. -/
def processGroupsAsync :
    List (String × List Memory) → ClientState → Except NebErr (List String) × ClientState
  | [], st => (.ok [], st)
  | (k, g) :: t, st =>
    match processGroupAsync k g st with
    | (.error e, st') => (.error e, st')
    | (.ok ids, st') =>
      match processGroupsAsync t st' with
      | (.ok more, st'') => (.ok (ids ++ more), st'')
      | (.error e, st'') => (.error e, st'')

/-- Process the async role-less requests one by one. -/
def processOthersAsync : List Memory → ClientState → Except NebErr (List String) × ClientState
  | [], st => (.ok [], st)
  | m :: t, st =>
    match storeMemoryAsync m none st with
    | (.error e, st') => (.error e, st')
    | (.ok r, st') =>
      match processOthersAsync t st' with
      | (.ok more, st'') => (.ok (r :: more), st'')
      | (.error e, st'') => (.error e, st'')

/-- `AsyncNebula.store_memories` (async_client.py lines 547-602). -/
def storeMemoriesAsync (ms : List Memory) (st : ClientState) :
    Except NebErr (List String) × ClientState :=
  let (groups, others) := buildGroups ms
  match processGroupsAsync groups st with
  | (.error e, st') => (.error e, st')
  | (.ok convResults, st') =>
    match processOthersAsync others st' with
    | (.ok otherResults, st'') => (.ok (convResults ++ otherResults), st'')
    | (.error e, st'') => (.error e, st'')

/-! ## `update_memory` -/

/-- `Nebula.update_memory` (client.py lines 989-1043): build the PATCH payload
from the provided fields (`merge_metadata` rides along with `metadata`); an
empty payload raises the validation error locally, before any request; a 404
on the PATCH becomes the not-found error naming the memory id. -/
def updateMemorySync (memoryId : String) (name : Option String)
    (metadata : Option Dict) (collectionIds : Option (List String))
    (mergeMetadata : Bool) (st : ClientState) : Except NebErr Bool × ClientState :=
  let payload : Dict := []
  let payload := match name with
    | some n => dset payload "name" (.str n)
    | none => payload
  let payload := match metadata with
    | some md => dset (dset payload "metadata" (.dict md)) "merge_metadata" (.bool mergeMetadata)
    | none => payload
  let payload := match collectionIds with
    | some cs => dset payload "collection_ids" (.list (cs.map PVal.str))
    | none => payload
  if payload.isEmpty then
    (.error (.validationErr
      (.str "At least one field (name, metadata, or collection_ids) must be provided to update")
      none), st)
  else
    match send ⟨"PATCH", .memPatch memoryId, payload, false⟩ st with
    | (.ok _, st') => (.ok true, st')
    | (.error e, st') => (.error (convert404 memoryId e), st')

/-! ## The Response Mapper (`models.MemoryResponse.from_dict`)

`from_dict` mutates its argument: `metadata = data.get("metadata", {})`
aliases the dict stored in `data`, and the later `metadata["engram_id"] = ...`
and `metadata.update(...)` write through that alias. The embedding makes the
mutation explicit by returning the updated `data` next to the read model;
`None` models a Python runtime error (`TypeError`/`ValueError` on mutating a
non-dict). `datetime.fromisoformat` is standard-library code outside this
repository; a timestamp is modelled as its normalized string (`Z` replaced by
`+00:00`), which preserves exactly the determinism the mapper relies on. -/

/-- A parsed chunk (`models.Chunk`): non-string fields keep the raw value the
dict carried. -/
structure ChunkM where
  id : String
  content : PVal
  metadata : PVal
  role : PVal
deriving DecidableEq, Repr

/-- The read model (`models.MemoryResponse`): `id` is a raw value because the
engram-id fallback assigns the unconverted `data["engram_id"]`. -/
structure MemoryResponseM where
  id : PVal
  content : PVal
  chunks : Option (List ChunkM)
  metadata : PVal
  collection_ids : PVal
  created_at : Option String
  updated_at : Option String
deriving DecidableEq, Repr

/-- Timestamp handling of `from_dict` (models.py lines 265-281): a truthy
string is parsed (modelled as `Z`→`+00:00` normalization); a truthy non-string
JSON value matches neither `isinstance` branch and leaves the field `None`. -/
def tsOf (v : PVal) : Option String :=
  if truthy v then
    match v with
    | .str s => some (s.replace "Z" "+00:00")
    | _ => none
  else none

/-- Chunk-list parsing of `from_dict` (models.py lines 289-309): present only
when `data["chunks"]` is a list; dict items parse field-by-field, string items
become id-less chunks, other items are skipped; an empty result is `None`. -/
def parseChunks (data : Dict) : Option (List ChunkM) :=
  match dget? data "chunks" with
  | some (.list items) =>
    let cl := items.foldr
      (fun it acc =>
        match it with
        | .dict item =>
          { id := pyStr (dgetD item "id" (.str "")),
            content := pyOr (dgetD item "content" .null) (dgetD item "text" (.str "")),
            metadata := dgetD item "metadata" (.dict []),
            role := dgetD item "role" .null } :: acc
        | .str s => { id := "", content := .str s, metadata := .dict [], role := .null } :: acc
        | _ => acc)
      ([] : List ChunkM)
    if cl.isEmpty then none else some cl
  | _ => none

/-- The two in-place metadata mutations of `from_dict` (models.py lines
312-323): assign `engram_id` when truthy, then merge a truthy
`engram_metadata`; mutating or merging a non-dict is a Python runtime error
(`none`). (A JSON `engram_metadata` that is a list of pairs would also
`update` in Python; that contrived shape is modelled as the error.) -/
def metaWith (engramId : PVal) (engramMeta : PVal) (metadata0 : PVal) : Option PVal :=
  let step1 : Option PVal :=
    if truthy engramId then
      match metadata0 with
      | .dict md => some (.dict (dset md "engram_id" engramId))
      | _ => none
    else some metadata0
  match step1 with
  | none => none
  | some meta1 =>
    if truthy engramMeta then
      match meta1, engramMeta with
      | .dict md, .dict em => some (.dict (dupdate md em))
      | _, _ => none
    else some meta1

/-- `MemoryResponse.from_dict` (models.py lines 262-333), returning the read
model together with the post-call state of the argument dict. -/
def fromDict (data : Dict) : Option (MemoryResponseM × Dict) :=
  let memoryId0 := pyStr (dgetD data "id" (.str ""))
  let content := pyOr (dgetD data "content" .null) (dgetD data "text" .null)
  let chunks := parseChunks data
  let metadata0 := dgetD data "metadata" (.dict [])
  let collectionIds := dgetD data "collection_ids" (.list [])
  let engramId := dgetD data "engram_id" .null
  let engramMeta := dgetD data "engram_metadata" .null
  match metaWith engramId engramMeta metadata0 with
  | none => none
  | some metaF =>
    let memoryId : PVal :=
      if truthy engramId && memoryId0 = "" then engramId else .str memoryId0
    let data' := if dhas data "metadata" then dset data "metadata" metaF else data
    some ({ id := memoryId, content := content, chunks := chunks, metadata := metaF,
            collection_ids := collectionIds,
            created_at := tsOf (dgetD data "created_at" .null),
            updated_at := tsOf (dgetD data "updated_at" .null) }, data')

/-- Keys of a dict. -/
def dkeys (d : Dict) : List String := d.map Prod.fst

/-- A dict with pairwise-distinct keys — every dict decoded from JSON or built
by Python has this shape. -/
def NodupKeys (d : Dict) : Prop := (dkeys d).Nodup

/-! ## Association-list lemmas (Python dict semantics) -/

theorem dget?_dset_self (d : Dict) (k : String) (v : PVal) :
    dget? (dset d k v) k = some v := by
  induction d with
  | nil => simp [dset, dget?]
  | cons p t ih =>
    obtain ⟨k', v'⟩ := p
    by_cases h : k' = k
    · simp [dset, h, dget?]
    · simp [dset, h, dget?, ih]

theorem dget?_dset_ne (d : Dict) (k j : String) (v : PVal) (h : j ≠ k) :
    dget? (dset d j v) k = dget? d k := by
  induction d with
  | nil => simp [dset, dget?, h]
  | cons p t ih =>
    obtain ⟨k', v'⟩ := p
    by_cases hj : k' = j
    · subst hj
      simp [dset, dget?, h]
    · by_cases hk : k' = k
      · subst hk
        simp [dset, dget?, hj]
      · simp [dset, hj, dget?, hk, ih]

theorem dhas_dset_self (d : Dict) (k : String) (v : PVal) :
    dhas (dset d k v) k = true := by
  induction d with
  | nil => simp [dset, dhas]
  | cons p t ih =>
    obtain ⟨k', v'⟩ := p
    by_cases h : k' = k
    · simp [dset, h, dhas]
    · simp [dset, h, dhas, ih]

theorem dhas_dset_of (d : Dict) (k j : String) (v : PVal) (h : dhas d k = true) :
    dhas (dset d j v) k = true := by
  induction d with
  | nil => simp [dhas] at h
  | cons p t ih =>
    obtain ⟨k', v'⟩ := p
    by_cases hj : k' = j
    · subst hj
      simp only [dset, if_pos rfl, dhas]
      simpa [dhas] using h
    · simp only [dset, if_neg hj, dhas]
      simp only [dhas] at h
      rcases (Bool.or_eq_true _ _).mp h with h1 | h1
      · simp [h1]
      · simp [ih h1]

theorem dset_eq_of_dget? (d : Dict) (k : String) (v : PVal) (h : dget? d k = some v) :
    dset d k v = d := by
  induction d with
  | nil => simp [dget?] at h
  | cons p t ih =>
    obtain ⟨k', v'⟩ := p
    by_cases hk : k' = k
    · subst hk
      simp [dget?] at h
      simp [dset, h]
    · simp [dget?, hk] at h
      simp [dset, hk, ih h]

theorem dupdate_nil (d : Dict) : dupdate d [] = d := rfl

theorem dupdate_cons (d : Dict) (p : String × PVal) (t : Dict) :
    dupdate d (p :: t) = dupdate (dset d p.1 p.2) t := rfl

theorem dget?_dupdate_not_mem (e : Dict) (d : Dict) (k : String)
    (h : ∀ p ∈ e, p.1 ≠ k) :
    dget? (dupdate d e) k = dget? d k := by
  induction e generalizing d with
  | nil => rfl
  | cons p t ih =>
    rw [dupdate_cons, ih _ (fun q hq => h q (List.mem_cons_of_mem p hq)),
      dget?_dset_ne _ _ _ _ (h p (List.mem_cons_self p t))]

theorem dhas_dupdate_of (e : Dict) (d : Dict) (k : String) (h : dhas d k = true) :
    dhas (dupdate d e) k = true := by
  induction e generalizing d with
  | nil => exact h
  | cons p t ih => rw [dupdate_cons]; exact ih _ (dhas_dset_of _ _ _ _ h)

theorem dget?_dupdate_mem (e : Dict) (d : Dict) (k : String) (v : PVal)
    (hnd : (e.map Prod.fst).Nodup) (hm : (k, v) ∈ e) :
    dget? (dupdate d e) k = some v := by
  induction e generalizing d with
  | nil => cases hm
  | cons p t ih =>
    rw [dupdate_cons]
    rcases List.mem_cons.mp hm with h | h
    · subst h
      have hnk : ∀ q ∈ t, q.1 ≠ k := by
        intro q hq hqe
        have h1 : q.1 ∈ t.map Prod.fst := List.mem_map_of_mem Prod.fst hq
        rw [hqe] at h1
        exact (List.nodup_cons.mp hnd).1 h1
      rw [dget?_dupdate_not_mem _ _ _ hnk, dget?_dset_self]
    · exact ih _ (List.nodup_cons.mp hnd).2 h

theorem dupdate_eq_of_lookups (e : Dict) (d : Dict)
    (h : ∀ p ∈ e, dget? d p.1 = some p.2) :
    dupdate d e = d := by
  induction e with
  | nil => rfl
  | cons p t ih =>
    rw [dupdate_cons, dset_eq_of_dget? _ _ _ (h p (List.mem_cons_self p t))]
    exact ih (fun q hq => h q (List.mem_cons_of_mem p hq))

theorem dupdate_idem (d e : Dict) (hnd : (e.map Prod.fst).Nodup) :
    dupdate (dupdate d e) e = dupdate d e :=
  dupdate_eq_of_lookups e _ (fun p hp => dget?_dupdate_mem e d p.1 p.2 hnd (by simpa using hp))

theorem dset_dset_self (d : Dict) (k : String) (v w : PVal) :
    dset (dset d k v) k w = dset d k w := by
  induction d with
  | nil => simp [dset]
  | cons p t ih =>
    obtain ⟨k', v'⟩ := p
    by_cases h : k' = k
    · simp [dset, h]
    · simp [dset, h, ih]

theorem dset_comm_of_has (d : Dict) (k j : String) (v u : PVal) (hkj : k ≠ j)
    (h : dhas d k = true) :
    dset (dset d k v) j u = dset (dset d j u) k v := by
  induction d with
  | nil => simp [dhas] at h
  | cons p t ih =>
    obtain ⟨k', v'⟩ := p
    by_cases hk : k' = k
    · have hk'j : ¬k' = j := by rw [hk]; exact hkj
      simp [dset, hk, hk'j, hkj]
    · by_cases hj : k' = j
      · simp [dset, hk, hj, Ne.symm hkj]
      · simp only [dhas] at h
        rcases (Bool.or_eq_true _ _).mp h with h1 | h1
        · exact absurd (by simpa using h1) hk
        · simp [dset, hk, hj, ih h1]

theorem dupdate_dset_absorb (e : Dict) (M : Dict) (k : String) (v : PVal)
    (hhas : dhas M k = true) (hm : ∃ w, (k, w) ∈ e) :
    dupdate (dset M k v) e = dupdate M e := by
  induction e generalizing M with
  | nil => obtain ⟨w, hw⟩ := hm; cases hw
  | cons p t ih =>
    obtain ⟨k1, w1⟩ := p
    by_cases hk : k1 = k
    · subst hk
      rw [dupdate_cons, dupdate_cons]
      simp only [dset_dset_self]
    · rw [dupdate_cons, dupdate_cons]
      have hmt : ∃ w, (k, w) ∈ t := by
        obtain ⟨w, hw⟩ := hm
        rcases List.mem_cons.mp hw with h | h
        · cases h; exact absurd rfl hk
        · exact ⟨w, h⟩
      calc dupdate (dset (dset M k v) k1 w1) t
          = dupdate (dset (dset M k1 w1) k v) t := by
            rw [dset_comm_of_has M k k1 v w1 (fun hc => hk hc.symm) hhas]
        _ = dupdate (dset M k1 w1) t :=
            ih (dset M k1 w1) (dhas_dset_of _ _ _ _ hhas) hmt

/-- A successful-result classifier used to state that a given outcome is not
the validation error. -/
def isValidationOutcome : Except NebErr String → Bool
  | .error (.validationErr _ _) => true
  | _ => false

/-! ## Claim theorems -/

/-- C7: for every HTTP response, status 200 and 202 are treated as success;
401 raises the authentication error; 429 the rate-limit error; 400 the
validation error carrying structured details exactly when the body's
`details` field is a mapping; and every other non-2xx status raises the
generic API error with that status code and the raw error body (the empty
body standing in when the response has no content). -/
theorem make_request_status_mapping (st0 : Nat) (body : Dict) :
    (handleResponse ⟨200, some body⟩ = .ok body) ∧
    (handleResponse ⟨202, some body⟩ = .ok body) ∧
    (handleResponse ⟨401, some body⟩ = .error (.authErr "Invalid API key")) ∧
    (handleResponse ⟨429, some body⟩ = .error (.rateLimitErr "Rate limit exceeded")) ∧
    (∀ ds, dget? body "details" = some (.dict ds) →
      handleResponse ⟨400, some body⟩ =
        .error (.validationErr (dgetD body "message" (.str "Validation error")) (some ds))) ∧
    ((∀ v, dget? body "details" = some v → isDict v = false) →
      handleResponse ⟨400, some body⟩ =
        .error (.validationErr (dgetD body "message" (.str "Validation error")) none)) ∧
    (handleResponse ⟨400, none⟩ = .error (.validationErr (.str "Validation error") none)) ∧
    (¬(200 ≤ st0 ∧ st0 ≤ 299) → st0 ≠ 401 → st0 ≠ 429 → st0 ≠ 400 →
      handleResponse ⟨st0, some body⟩ =
        .error (.apiErr (dgetD body "message" (.str ("API error: " ++ toString st0)))
          st0 body)) ∧
    (¬(200 ≤ st0 ∧ st0 ≤ 299) → st0 ≠ 401 → st0 ≠ 429 → st0 ≠ 400 →
      handleResponse ⟨st0, none⟩ =
        .error (.apiErr (.str ("API error: " ++ toString st0)) st0 [])) := by
  refine ⟨by simp [handleResponse], by simp [handleResponse], by simp [handleResponse],
    by simp [handleResponse], ?_, ?_, by simp [handleResponse, dgetD, dget?], ?_, ?_⟩
  · intro ds hds
    simp [handleResponse, hds]
  · intro h
    rcases hv : dget? body "details" with _ | v
    · simp [handleResponse, hv]
    · have hfd := h v hv
      cases v <;> simp [isDict] at hfd ⊢ <;> simp [handleResponse, hv]
  · intro h1 h2 h3 h4
    have hns : ¬(st0 = 200 ∨ st0 = 202) := by omega
    simp [handleResponse, hns, h2, h3, h4]
  · intro h1 h2 h3 h4
    have hns : ¬(st0 = 200 ∨ st0 = 202) := by omega
    simp [handleResponse, hns, h2, h3, h4, dgetD, dget?]

/-- Witness for C7: a 500 response maps to the generic API error carrying the
status and body, and a 400 response with dict `details` maps to the
validation error carrying them. -/
theorem make_request_status_mapping_witness :
    handleResponse ⟨500, some [("message", .str "boom")]⟩ =
      .error (.apiErr (.str "boom") 500 [("message", .str "boom")]) ∧
    handleResponse ⟨400, some [("details", .dict [("f", .str "bad")])]⟩ =
      .error (.validationErr (.str "Validation error") (some [("f", .str "bad")])) := by
  constructor
  · exact (make_request_status_mapping 500 [("message", .str "boom")]).2.2.2.2.2.2.2.1
      (by omega) (by decide) (by decide) (by decide)
  · exact (make_request_status_mapping 400 [("details", .dict [("f", .str "bad")])]).2.2.2.2.1
      [("f", .str "bad")] (by decide)

/-- C10: `update_memory` with `name`, `metadata` and `collection_ids` all
absent raises the validation error locally — the returned state is exactly the
input state, so no request is issued and nothing observable changes. -/
theorem update_memory_no_fields_validation (memoryId : String) (mergeMetadata : Bool)
    (st : ClientState) :
    updateMemorySync memoryId none none none mergeMetadata st =
      (.error (.validationErr
        (.str "At least one field (name, metadata, or collection_ids) must be provided to update")
        none), st) := rfl

/-- Lookup through a conditional assignment to a different key. -/
theorem dget?_ite_dset_ne {c : Prop} [Decidable c] (d : Dict) (j k : String) (v : PVal)
    (h : j ≠ k) :
    dget? (if c then dset d j v else d) k = dget? d k := by
  split
  · exact dget?_dset_ne d k j v h
  · rfl

/-- C2 counterexample: the synchronous `store_memory` on a role-bearing,
id-less request with non-empty content issues exactly ONE request — a
conversation create whose payload already carries the message inline — and no
separate append operation, succeeding with the created id. -/
theorem sync_conversation_create_is_single_call :
    (storeMemorySync { collection_id := "c1", content := .str "hi", role := some "user" } none
        ⟨[], [⟨200, some [("results", .dict [("id", .str "CONV")])]⟩]⟩) =
      (.ok "CONV",
       ⟨[⟨"POST", .memories,
          [("collection_ref", .str "c1"), ("engram_type", .str "conversation"),
           ("messages", .list [.dict [("role", .str "user"), ("content", .str "hi"),
             ("metadata", .dict [])]]),
           ("metadata", .dict [])], false⟩], []⟩) ∧
    (storeMemorySync { collection_id := "c1", content := .str "hi", role := some "user" } none
        ⟨[], [⟨200, some [("results", .dict [("id", .str "CONV")])]⟩]⟩).2.sent.length = 1 :=
  ⟨rfl, rfl⟩

/-- C4 counterexample: the asynchronous `_append_to_memory` given plain-string
content WITH a role sends the string under `raw_text` and no `messages` field
— the role-wrapping the claim describes happens only in the sync client. -/
theorem async_append_role_string_not_wrapped :
    appendPayloadAsync
        { collection_id := "c1", content := .str "hi", role := some "user",
          memory_id := some "m1" } =
      .ok [("collection_id", .str "c1"), ("raw_text", .str "hi"), ("metadata", .dict [])] ∧
    dget? [("collection_id", .str "c1"), ("raw_text", .str "hi"), ("metadata", .dict [])]
        "messages" = none :=
  ⟨rfl, rfl⟩

/-- C5 counterexample: an empty-string document write fails locally with the
CLIENT error (`NebulaClientException`), not the validation error, in both
clients — no request is issued either way. -/
theorem empty_document_is_client_error_not_validation :
    (storeMemorySync { collection_id := "c1", content := .str "" } none ⟨[], []⟩) =
      (.error (.clientErr "Content is required for document memories"), ⟨[], []⟩) ∧
    isValidationOutcome
      (storeMemorySync { collection_id := "c1", content := .str "" } none ⟨[], []⟩).1 = false ∧
    (storeMemoryAsync { collection_id := "c1", content := .str "" } none ⟨[], []⟩) =
      (.error (.clientErr "Content is required for document memories"), ⟨[], []⟩) ∧
    isValidationOutcome
      (storeMemoryAsync { collection_id := "c1", content := .str "" } none ⟨[], []⟩).1 = false :=
  ⟨rfl, rfl, rfl, rfl⟩

/-- C5 (amended): for a document write (role and target id absent) with
plain-string content, an empty string fails locally with the client error
(`NebulaClientException`) before any request is issued, and otherwise the
single outgoing create request's metadata carries, under `content_hash`, the
SHA-256 hex digest of the UTF-8 encoded text — in both clients. -/
theorem document_content_hash (cid s : String) (md : Dict) (auth : Option Rat)
    (resps : List HttpResp) :
    (s = "" →
      storeMemorySync ⟨cid, .str s, none, none, some md, auth, none, none, none⟩ none
          ⟨[], resps⟩ =
        (.error (.clientErr "Content is required for document memories"), ⟨[], resps⟩) ∧
      storeMemoryAsync ⟨cid, .str s, none, none, some md, auth, none, none, none⟩ none
          ⟨[], resps⟩ =
        (.error (.clientErr "Content is required for document memories"), ⟨[], resps⟩)) ∧
    (s ≠ "" →
      ∃ payload,
        (storeMemorySync ⟨cid, .str s, none, none, some md, auth, none, none, none⟩ none
          ⟨[], resps⟩).2.sent = [⟨"POST", .memories, payload, false⟩] ∧
        ∃ dm, dget? payload "metadata" = some (.dict dm) ∧
          dget? dm "content_hash" = some (.str (sha256hex s))) ∧
    (s ≠ "" →
      ∃ body,
        (storeMemoryAsync ⟨cid, .str s, none, none, some md, auth, none, none, none⟩ none
          ⟨[], resps⟩).2.sent = [⟨"POST", .memories, body, true⟩] ∧
        ∃ dm, dget? body "metadata" = some (.dict dm) ∧
          dget? dm "content_hash" = some (.str (sha256hex s))) := by
  refine ⟨?_, ?_, ?_⟩
  · intro hs
    subst hs
    exact ⟨rfl, rfl⟩
  · intro hs
    have hpay : docPayloadSync ⟨cid, .str s, none, none, some md, auth, none, none, none⟩ =
        .ok [("collection_ref", .str cid), ("engram_type", .str "document"),
             ("metadata", .dict (dset (docMetadataSync (some md) auth) "content_hash"
               (.str (sha256hex s)))),
             ("ingestion_mode", .str "fast"), ("raw_text", .str s)] := by
      simp [docPayloadSync, pyStrOrEmpty, truthy, pyStr, hs]
    have hsent : (storeMemorySync ⟨cid, .str s, none, none, some md, auth, none, none, none⟩
        none ⟨[], resps⟩).2.sent =
        [⟨"POST", .memories,
          [("collection_ref", .str cid), ("engram_type", .str "document"),
           ("metadata", .dict (dset (docMetadataSync (some md) auth) "content_hash"
             (.str (sha256hex s)))),
           ("ingestion_mode", .str "fast"), ("raw_text", .str s)], false⟩] := by
      simp only [storeMemorySync]
      rw [if_neg (by simp [strTruthy]), if_neg (by simp [strTruthy]), hpay]
      cases resps with
      | nil => rfl
      | cons h t =>
        simp only [send]
        split <;> rename_i heq <;> (injection heq with h1 h2; rw [← h2]) <;> rfl
    exact ⟨_, hsent, dset (docMetadataSync (some md) auth) "content_hash" (.str (sha256hex s)),
      rfl, dget?_dset_self _ _ _⟩
  · intro hs
    have hbody : asyncDocBody ⟨cid, .str s, none, none, some md, auth, none, none, none⟩ =
        .ok [("metadata", .dict (asyncHashMeta md auth (sha256hex s))),
             ("ingestion_mode", .str "fast"),
             ("collection_ids", .list [.str cid]), ("raw_text", .str s)] := by
      simp [asyncDocBody, metaOrEmpty, pyStrOrEmpty, truthy, pyStr, hs]
    have hsent : (storeMemoryAsync ⟨cid, .str s, none, none, some md, auth, none, none, none⟩
        none ⟨[], resps⟩).2.sent =
        [⟨"POST", .memories,
          [("metadata", .dict (asyncHashMeta md auth (sha256hex s))),
           ("ingestion_mode", .str "fast"),
           ("collection_ids", .list [.str cid]), ("raw_text", .str s)], true⟩] := by
      simp only [storeMemoryAsync]
      rw [if_neg (by simp [strTruthy]), if_neg (by simp [strTruthy]), hbody]
      cases resps with
      | nil => rfl
      | cons h t =>
        simp only [sendRaw]
        split <;> rename_i heq <;> (injection heq with h1 h2; rw [← h2]) <;> rfl
    refine ⟨_, hsent, asyncHashMeta md auth (sha256hex s), rfl, ?_⟩
    unfold asyncHashMeta
    rcases auth with _ | a
    · exact dget?_dset_self _ _ _
    · dsimp only
      split
      · rw [dget?_dset_ne _ _ _ _ (by decide), dget?_dset_self]
      · exact dget?_dset_self _ _ _

/-- Witness for C5: at `"hello"` the hypotheses hold and the sync client's
single create request carries the SHA-256 of "hello" under `content_hash`;
at `""` both clients fail with the client error. -/
theorem document_content_hash_witness :
    (storeMemorySync ⟨"c1", .str "", none, none, some [], none, none, none, none⟩ none
        ⟨[], []⟩ =
      (.error (.clientErr "Content is required for document memories"), ⟨[], []⟩)) ∧
    (∃ payload,
      (storeMemorySync ⟨"c1", .str "hello", none, none, some [], none, none, none, none⟩ none
        ⟨[], []⟩).2.sent = [⟨"POST", .memories, payload, false⟩] ∧
      ∃ dm, dget? payload "metadata" = some (.dict dm) ∧
        dget? dm "content_hash" = some (.str (sha256hex "hello"))) :=
  ⟨((document_content_hash "c1" "" [] none []).1 rfl).1,
   (document_content_hash "c1" "hello" [] none []).2.1 (by decide)⟩

/-- The outcome of an append given the scripted response: the not-found error
arises exactly on a 404 status. Used for C3. -/
theorem append_outcome_notFound_iff (r : HttpResp) (mid : String) :
    ((match handleResponse r with
      | .ok _ => (.ok mid : Except NebErr String)
      | .error e => .error (convert404 mid e)) = .error (.notFoundErr mid "Memory")) ↔
      r.status = 404 := by
  by_cases h2 : r.status = 200 ∨ r.status = 202
  · have h404 : r.status ≠ 404 := by rcases h2 with h | h <;> omega
    rcases hb : r.body with _ | b <;> simp [handleResponse, h2, hb, convert404, h404]
  · by_cases h401 : r.status = 401
    · simp [handleResponse, h2, h401, convert404]
    · by_cases h429 : r.status = 429
      · simp [handleResponse, h2, h401, h429, convert404]
      · by_cases h400 : r.status = 400
        · simp [handleResponse, h2, h401, h429, h400, convert404]
        · by_cases h404 : r.status = 404
          · simp [handleResponse, h2, h401, h429, h400, convert404, h404]
          · simp [handleResponse, h2, h401, h429, h400, convert404, h404]

/-- C3: a Write Request with a (truthy) target id issues exactly one append
request to `/v1/memories/{id}/append` in either client; a 2xx reply returns
exactly the id that was given; and the call raises `NebulaNotFoundException`
naming that id and the entity kind "Memory" if and only if the server answers
that append with HTTP 404. -/
theorem append_by_id_behavior (m : Memory) (mid : String) (pay pay2 : Dict) (resp : HttpResp)
    (hmid : m.memory_id = some mid) (hne : mid ≠ "")
    (hpay : appendPayloadSync m = .ok pay) (hpay2 : appendPayloadAsync m = .ok pay2) :
    (storeMemorySync m none ⟨[], [resp]⟩).2.sent = [⟨"POST", .memAppend mid, pay, false⟩] ∧
    (storeMemoryAsync m none ⟨[], [resp]⟩).2.sent = [⟨"POST", .memAppend mid, pay2, false⟩] ∧
    ((resp.status = 200 ∨ resp.status = 202) → ∀ b, resp.body = some b →
      (storeMemorySync m none ⟨[], [resp]⟩).1 = .ok mid ∧
      (storeMemoryAsync m none ⟨[], [resp]⟩).1 = .ok mid) ∧
    ((storeMemorySync m none ⟨[], [resp]⟩).1 = .error (.notFoundErr mid "Memory") ↔
      resp.status = 404) ∧
    ((storeMemoryAsync m none ⟨[], [resp]⟩).1 = .error (.notFoundErr mid "Memory") ↔
      resp.status = 404) := by
  have htr : strTruthy m.memory_id = true := by rw [hmid]; simp [strTruthy, hne]
  have hgd : m.memory_id.getD "" = mid := by rw [hmid]; rfl
  have hsync : storeMemorySync m none ⟨[], [resp]⟩ =
      ((match handleResponse resp with
        | .ok _ => (.ok mid : Except NebErr String)
        | .error e => .error (convert404 mid e)),
       ⟨[⟨"POST", .memAppend mid, pay, false⟩], []⟩) := by
    simp only [storeMemorySync, htr, if_true, hgd, appendToMemorySync, hpay, send]
    rcases hh : handleResponse resp with e | d <;> rfl
  have hasync : storeMemoryAsync m none ⟨[], [resp]⟩ =
      ((match handleResponse resp with
        | .ok _ => (.ok mid : Except NebErr String)
        | .error e => .error (convert404 mid e)),
       ⟨[⟨"POST", .memAppend mid, pay2, false⟩], []⟩) := by
    simp only [storeMemoryAsync, htr, if_true, hgd, appendToMemoryAsync, hpay2, send]
    rcases hh : handleResponse resp with e | d <;> rfl
  refine ⟨by rw [hsync], by rw [hasync], ?_, ?_, ?_⟩
  · intro hst b hb
    have hok : handleResponse resp = .ok b := by
      unfold handleResponse
      rw [if_pos hst, hb]
    rw [hsync, hasync]
    simp [hok]
  · rw [hsync]
    exact append_outcome_notFound_iff resp mid
  · rw [hasync]
    exact append_outcome_notFound_iff resp mid

/-- Witness for C3: a concrete append that the server answers with 404 raises
the not-found error naming the id, and one answered 200 returns the id. -/
theorem append_by_id_behavior_witness :
    (storeMemorySync ⟨"c1", .str "x", none, some "m77", some [], none, none, none, none⟩ none
      ⟨[], [⟨404, some []⟩]⟩).1 = .error (.notFoundErr "m77" "Memory") ∧
    (storeMemorySync ⟨"c1", .str "x", none, some "m77", some [], none, none, none, none⟩ none
      ⟨[], [⟨200, some []⟩]⟩).1 = .ok "m77" := by
  constructor
  · exact (append_by_id_behavior
      ⟨"c1", .str "x", none, some "m77", some [], none, none, none, none⟩ "m77"
      [("collection_id", .str "c1"), ("raw_text", .str "x"), ("metadata", .dict [])]
      [("collection_id", .str "c1"), ("raw_text", .str "x"), ("metadata", .dict [])]
      ⟨404, some []⟩ rfl (by decide) rfl rfl).2.2.2.1.mpr rfl
  · exact ((append_by_id_behavior
      ⟨"c1", .str "x", none, some "m77", some [], none, none, none, none⟩ "m77"
      [("collection_id", .str "c1"), ("raw_text", .str "x"), ("metadata", .dict [])]
      [("collection_id", .str "c1"), ("raw_text", .str "x"), ("metadata", .dict [])]
      ⟨200, some []⟩ rfl (by decide) rfl rfl).2.2.1 (Or.inl rfl) [] rfl).1

/-- The sync conversation-create payload always carries
`engram_type = "conversation"`. -/
theorem convCreatePayloadSync_engram_type (m : Memory) (name : Option String) :
    dget? (convCreatePayloadSync m name) "engram_type" = some (.str "conversation") := by
  unfold convCreatePayloadSync
  rw [dget?_ite_dset_ne _ _ _ _ (by decide), dget?_ite_dset_ne _ _ _ _ (by decide),
    dget?_ite_dset_ne _ _ _ _ (by decide), dget?_ite_dset_ne _ _ _ _ (by decide)]
  rfl

/-- The sync conversation-create payload's `messages` field is exactly the
inline message list. -/
theorem convCreatePayloadSync_messages (m : Memory) (name : Option String) :
    dget? (convCreatePayloadSync m name) "messages" = some (.list (convMessagesSync m)) := by
  unfold convCreatePayloadSync
  rw [dget?_ite_dset_ne _ _ _ _ (by decide), dget?_ite_dset_ne _ _ _ _ (by decide),
    dget?_ite_dset_ne _ _ _ _ (by decide), dget?_ite_dset_ne _ _ _ _ (by decide)]
  rfl

/-- The sync inline first message carries the request's role. -/
theorem firstMsgSync_role (m : Memory) :
    dget? (firstMsgSync m) "role" = some (roleVal m.role) := by
  unfold firstMsgSync
  rcases m.authority with _ | a
  · rfl
  · dsimp only
    rw [dget?_dset_ne _ _ _ _ (by decide)]
    rfl

/-- The async first message carries the request's role. -/
theorem asyncFirstMsg_role (m : Memory) :
    dget? (asyncFirstMsg m) "role" = some (roleVal m.role) := by
  unfold asyncFirstMsg
  rcases m.authority with _ | a
  · rfl
  · dsimp only
    rw [dget?_dset_ne _ _ _ _ (by decide)]
    rfl

/-- C2 (amended): for a role-bearing, id-less Write Request, the asynchronous
client issues a create-conversation operation followed by exactly one append
carrying exactly one message with the original role when content is truthy
(only the create when content is falsy); the synchronous client instead issues
a SINGLE create-conversation operation whose payload carries that one message
with the original role inline — an empty `messages` list when content is
falsy — and no separate append. -/
theorem conversation_create_behavior (m : Memory) (name : Option String) (r : String)
    (resps : List HttpResp) (resp2 : HttpResp)
    (hrole : m.role = some r) (hr : r ≠ "") (hmid : strTruthy m.memory_id = false) :
    ((storeMemorySync m name ⟨[], resps⟩).2.sent =
      [⟨"POST", .memories, convCreatePayloadSync m name, false⟩]) ∧
    (dget? (convCreatePayloadSync m name) "engram_type" = some (.str "conversation")) ∧
    (truthy m.content = true →
      dget? (convCreatePayloadSync m name) "messages" = some (.list [.dict (firstMsgSync m)]) ∧
      dget? (firstMsgSync m) "role" = some (.str r)) ∧
    (truthy m.content = false →
      dget? (convCreatePayloadSync m name) "messages" = some (.list [])) ∧
    (truthy m.content = true →
      (storeMemoryAsync m name
        ⟨[], [⟨200, some [("results", .dict [("engram_id", .str "CONV")])]⟩, resp2]⟩).2.sent =
        [⟨"POST", .memories, asyncConvCreateBody m name, true⟩,
         ⟨"POST", .memAppend "CONV",
           [("collection_id", .str m.collection_id),
            ("messages", .list [.dict (asyncFirstMsg m)]),
            ("metadata", .dict [])], false⟩] ∧
      dget? (asyncFirstMsg m) "role" = some (.str r)) ∧
    (truthy m.content = false →
      storeMemoryAsync m name
        ⟨[], [⟨200, some [("results", .dict [("engram_id", .str "CONV")])]⟩, resp2]⟩ =
        (.ok "CONV", ⟨[⟨"POST", .memories, asyncConvCreateBody m name, true⟩], [resp2]⟩)) := by
  have hrt : strTruthy m.role = true := by rw [hrole]; simp [strTruthy, hr]
  refine ⟨?_, convCreatePayloadSync_engram_type m name, ?_, ?_, ?_, ?_⟩
  · simp only [storeMemorySync]
    rw [if_neg (by simp [hmid]), if_pos (by rw [hrt])]
    cases resps with
    | nil => rfl
    | cons h t =>
      simp only [send]
      split <;> rename_i heq <;> (injection heq with h1 h2; subst h2)
      · rfl
      · split
        all_goals try split
        all_goals rfl
  · intro htc
    refine ⟨?_, ?_⟩
    · rw [convCreatePayloadSync_messages]
      unfold convMessagesSync
      rw [htc, hrt]
      rfl
    · rw [firstMsgSync_role, hrole]
      rfl
  · intro htc
    rw [convCreatePayloadSync_messages]
    unfold convMessagesSync
    rw [htc]
    rfl
  · intro htc
    refine ⟨?_, by rw [asyncFirstMsg_role, hrole]; rfl⟩
    have hstep1 : sendRaw "Failed to create conversation: "
        ⟨"POST", .memories, asyncConvCreateBody m name, true⟩
        ⟨[], [⟨200, some [("results", .dict [("engram_id", .str "CONV")])]⟩, resp2]⟩ =
        (.ok [("results", .dict [("engram_id", .str "CONV")])],
         ⟨[⟨"POST", .memories, asyncConvCreateBody m name, true⟩], [resp2]⟩) := rfl
    simp only [storeMemoryAsync]
    rw [if_neg (by simp [hmid]), if_pos (by rw [hrt]), hstep1]
    rw [show (truthy m.content && strTruthy m.role) = true by rw [htc, hrt]; rfl]
    simp only [appendToMemoryAsync, appendPayloadAsync, send]
    rcases hh : handleResponse resp2 with e | d <;>
      simp [hh, dget?, dgetD, pyOr, truthy, pyStr, isDict, dset]
  · intro htc
    simp only [storeMemoryAsync]
    rw [if_neg (by simp [hmid]), if_pos (by rw [hrt])]
    rw [show (truthy m.content && strTruthy m.role) = false by rw [htc]; rfl]
    rfl

/-- Witness for C2: at a concrete role-bearing request the sync client's one
request is the create and the async client's two requests are create then a
one-message append. -/
theorem conversation_create_behavior_witness :
    (storeMemorySync ⟨"c1", .str "hi", some "user", none, some [], none, none, none, none⟩
      none ⟨[], []⟩).2.sent =
      [⟨"POST", .memories,
        convCreatePayloadSync ⟨"c1", .str "hi", some "user", none, some [], none, none, none, none⟩
          none, false⟩] ∧
    (storeMemoryAsync ⟨"c1", .str "hi", some "user", none, some [], none, none, none, none⟩
      none ⟨[], [⟨200, some [("results", .dict [("engram_id", .str "CONV")])]⟩, ⟨200, some []⟩]⟩).2.sent =
      [⟨"POST", .memories,
        asyncConvCreateBody ⟨"c1", .str "hi", some "user", none, some [], none, none, none, none⟩
          none, true⟩,
       ⟨"POST", .memAppend "CONV",
         [("collection_id", .str "c1"),
          ("messages", .list [.dict (asyncFirstMsg
            ⟨"c1", .str "hi", some "user", none, some [], none, none, none, none⟩)]),
          ("metadata", .dict [])], false⟩] := by
  constructor
  · exact (conversation_create_behavior
      ⟨"c1", .str "hi", some "user", none, some [], none, none, none, none⟩ none "user"
      [] ⟨200, some []⟩ rfl (by decide) rfl).1
  · exact ((conversation_create_behavior
      ⟨"c1", .str "hi", some "user", none, some [], none, none, none, none⟩ none "user"
      [] ⟨200, some []⟩ rfl (by decide) rfl).2.2.2.2.1 (by decide)).1

/-- Lookup of a non-`metadata` key through the append payload's conditional
metadata attachment (`if metadata is not None: payload["metadata"] = ...`). -/
theorem addMeta_dget? (mdata : Option Dict) (X : Dict) (k : String) (hk : k ≠ "metadata") :
    dget? (match mdata with
           | some md => dset X "metadata" (.dict md)
           | none => X) k = dget? X k := by
  rcases mdata with _ | md
  · rfl
  · exact dget?_dset_ne X k "metadata" _ (Ne.symm hk)

/-- C4 (amended): every append payload carries the content under exactly one
of three fields — `messages` for a list whose first element is a dict,
`chunks` for any other list, `raw_text` for a plain string — except that in
the SYNC client a plain string with a role present is wrapped into a
single-element `messages` list with that role (the ASYNC client sends
`raw_text` regardless of role); any other content shape raises the client
error in both clients. -/
theorem append_payload_classification (m : Memory) :
    (∀ d xs P, m.content = .list (.dict d :: xs) → appendPayloadSync m = .ok P →
      dget? P "messages" = some (.list (.dict d :: xs)) ∧ dget? P "chunks" = none ∧
      dget? P "raw_text" = none) ∧
    (∀ d xs P, m.content = .list (.dict d :: xs) → appendPayloadAsync m = .ok P →
      dget? P "messages" = some (.list (.dict d :: xs)) ∧ dget? P "chunks" = none ∧
      dget? P "raw_text" = none) ∧
    (∀ xs P, m.content = .list xs → (xs.head?.map isDict).getD false = false →
      appendPayloadSync m = .ok P →
      dget? P "chunks" = some (.list xs) ∧ dget? P "messages" = none ∧
      dget? P "raw_text" = none) ∧
    (∀ xs P, m.content = .list xs → (xs.head?.map isDict).getD false = false →
      appendPayloadAsync m = .ok P →
      dget? P "chunks" = some (.list xs) ∧ dget? P "messages" = none ∧
      dget? P "raw_text" = none) ∧
    (∀ s P r, m.content = .str s → m.role = some r → r ≠ "" →
      appendPayloadSync m = .ok P →
      dget? P "messages" = some (.list [.dict [("content", .str s), ("role", .str r)]]) ∧
      dget? P "chunks" = none ∧ dget? P "raw_text" = none) ∧
    (∀ s P, m.content = .str s → strTruthy m.role = false → appendPayloadSync m = .ok P →
      dget? P "raw_text" = some (.str s) ∧ dget? P "messages" = none ∧
      dget? P "chunks" = none) ∧
    (∀ s P, m.content = .str s → appendPayloadAsync m = .ok P →
      dget? P "raw_text" = some (.str s) ∧ dget? P "messages" = none ∧
      dget? P "chunks" = none) ∧
    ((∀ s, m.content ≠ .str s) → (∀ xs, m.content ≠ .list xs) →
      appendPayloadSync m =
        .error (.clientErr "content must be a string, list of strings, or list of message dicts") ∧
      appendPayloadAsync m =
        .error (.clientErr "content must be a string, list of strings, or list of message dicts")) := by
  have triple : ∀ (mdata : Option Dict) (base : Dict) (k : String) (v : PVal),
      k ≠ "metadata" →
      dget? (match mdata with
             | some md => dset (dset base k v) "metadata" (.dict md)
             | none => dset base k v) k = some v := by
    intro mdata base k v hk
    rw [addMeta_dget? _ _ _ hk, dget?_dset_self]
  have other : ∀ (mdata : Option Dict) (base : Dict) (k j : String) (v : PVal),
      j ≠ "metadata" → k ≠ j →
      dget? (match mdata with
             | some md => dset (dset base k v) "metadata" (.dict md)
             | none => dset base k v) j = dget? base j := by
    intro mdata base k j v hj hkj
    rw [addMeta_dget? _ _ _ hj, dget?_dset_ne _ _ _ _ hkj]
  refine ⟨?_, ?_, ?_, ?_, ?_, ?_, ?_, ?_⟩
  · intro d xs P hc hP
    unfold appendPayloadSync at hP
    rw [hc] at hP
    simp only [List.head?, Option.map, Option.getD, isDict, if_pos] at hP
    injection hP with h
    subst h
    exact ⟨triple _ _ _ _ (by decide), other _ _ _ _ _ (by decide) (by decide),
      other _ _ _ _ _ (by decide) (by decide)⟩
  · intro d xs P hc hP
    unfold appendPayloadAsync at hP
    rw [hc] at hP
    simp only [List.head?, Option.map, Option.getD, isDict, if_pos] at hP
    injection hP with h
    subst h
    exact ⟨triple _ _ _ _ (by decide), other _ _ _ _ _ (by decide) (by decide),
      other _ _ _ _ _ (by decide) (by decide)⟩
  · intro xs P hc hhd hP
    unfold appendPayloadSync at hP
    rw [hc] at hP
    simp only [] at hP
    rw [hhd] at hP
    rw [if_neg (by simp)] at hP
    injection hP with h
    subst h
    exact ⟨triple _ _ _ _ (by decide), other _ _ _ _ _ (by decide) (by decide),
      other _ _ _ _ _ (by decide) (by decide)⟩
  · intro xs P hc hhd hP
    unfold appendPayloadAsync at hP
    rw [hc] at hP
    simp only [] at hP
    rw [hhd] at hP
    rw [if_neg (by simp)] at hP
    injection hP with h
    subst h
    exact ⟨triple _ _ _ _ (by decide), other _ _ _ _ _ (by decide) (by decide),
      other _ _ _ _ _ (by decide) (by decide)⟩
  · intro s P r hc hrole hr hP
    unfold appendPayloadSync at hP
    rw [hc] at hP
    simp only [] at hP
    rw [if_pos (by rw [hrole]; simp [strTruthy, hr]), hrole] at hP
    simp only [roleVal] at hP
    injection hP with h
    subst h
    exact ⟨triple _ _ _ _ (by decide), other _ _ _ _ _ (by decide) (by decide),
      other _ _ _ _ _ (by decide) (by decide)⟩
  · intro s P hc hrole hP
    unfold appendPayloadSync at hP
    rw [hc] at hP
    simp only [] at hP
    rw [if_neg (by rw [hrole]; simp)] at hP
    injection hP with h
    subst h
    exact ⟨triple _ _ _ _ (by decide), other _ _ _ _ _ (by decide) (by decide),
      other _ _ _ _ _ (by decide) (by decide)⟩
  · intro s P hc hP
    unfold appendPayloadAsync at hP
    rw [hc] at hP
    simp only [] at hP
    injection hP with h
    subst h
    exact ⟨triple _ _ _ _ (by decide), other _ _ _ _ _ (by decide) (by decide),
      other _ _ _ _ _ (by decide) (by decide)⟩
  · intro hns hnl
    unfold appendPayloadSync appendPayloadAsync
    rcases hc : m.content with s | n | q | b | _ | xs | kvs | fs
    · exact absurd hc (hns s)
    · exact ⟨rfl, rfl⟩
    · exact ⟨rfl, rfl⟩
    · exact ⟨rfl, rfl⟩
    · exact ⟨rfl, rfl⟩
    · exact absurd hc (hnl xs)
    · exact ⟨rfl, rfl⟩
    · exact ⟨rfl, rfl⟩

/-- Witness for C4 (amended): concrete payloads for each shape — message-dict
list, string list, sync role-wrapped string — built from the client payload
functions. -/
theorem append_payload_classification_witness :
    (dget? [("collection_id", .str "c"), ("messages", .list [.dict [("content", .str "x")]]),
        ("metadata", .dict [])] "messages" = some (.list [.dict [("content", .str "x")]])) ∧
    (dget? [("collection_id", .str "c"), ("chunks", .list [.str "a"]), ("metadata", .dict [])]
        "chunks" = some (.list [.str "a"])) ∧
    (dget? [("collection_id", .str "c"),
        ("messages", .list [.dict [("content", .str "hi"), ("role", .str "user")]]),
        ("metadata", .dict [])] "messages" =
      some (.list [.dict [("content", .str "hi"), ("role", .str "user")]])) := by
  refine ⟨?_, ?_, ?_⟩
  · exact ((append_payload_classification
      ⟨"c", .list [.dict [("content", .str "x")]], none, none, some [], none, none, none, none⟩).1
      [("content", .str "x")] [] _ rfl rfl).1
  · exact ((append_payload_classification
      ⟨"c", .list [.str "a"], none, none, some [], none, none, none, none⟩).2.2.1
      [.str "a"] _ rfl rfl rfl).1
  · exact ((append_payload_classification
      ⟨"c", .str "hi", some "user", none, some [], none, none, none, none⟩).2.2.2.2.1
      "hi" _ "user" rfl rfl (by decide) rfl).1

/-- C1 (code bug): a role-less document request followed by a role-bearing
conversation request comes back as `[conversation id, document id]` — the
conversation-group results are emitted before the role-less results, so the
returned list does not correspond positionally to the input (the docstring and
spec promise input order). -/
theorem store_memories_interleaving_reorders :
    (storeMemoriesSync
      [{ collection_id := "c1", content := .list [.str "chunk one"] },
       { collection_id := "c1", content := .str "hi", role := some "user" }]
      ⟨[], [⟨200, some [("results", .dict [("id", .str "CONV")])]⟩,
            ⟨200, some []⟩,
            ⟨200, some [("results", .dict [("engram_id", .str "DOC")])]⟩]⟩).1 =
      .ok ["CONV", "DOC"] := by rfl

/-- `strTruthy` of a non-empty string option. -/
theorem strTruthy_some (s : String) (h : s ≠ "") : strTruthy (some s) = true := by
  simp [strTruthy, h]

/-- The synthetic key marker always matches its own prefix. -/
theorem pyStartsWith_marker (c : String) :
    pyStartsWith ("__new__::" ++ c) "__new__::" = true := by
  simp [pyStartsWith, String.data_append, List.take_left]

/-- Folding the grouping step over requests that all share one key extends
that single group in order. -/
theorem foldl_groupStep_const (k : String) (t : List Memory) (acc : List Memory)
    (h : ∀ m ∈ t, strTruthy m.role = true ∧ groupKey m = k) :
    t.foldl groupStep ([(k, acc)], []) = ([(k, acc ++ t)], []) := by
  induction t generalizing acc with
  | nil => simp
  | cons m t ih =>
    have hm := h m (List.mem_cons_self m t)
    rw [List.foldl_cons,
      show groupStep ([(k, acc)], []) m = ([(k, acc ++ [m])], []) from by
        simp [groupStep, hm.1, hm.2, addToGroups],
      ih (acc ++ [m]) (fun q hq => h q (List.mem_cons_of_mem m hq))]
    simp

/-- A non-empty batch whose members all share one grouping key builds exactly
one conversation group, in input order, and no role-less bucket. -/
theorem buildGroups_single (k : String) (g : List Memory)
    (h : ∀ m ∈ g, strTruthy m.role = true ∧ groupKey m = k) (hne : g ≠ []) :
    buildGroups g = ([(k, g)], []) := by
  match g, hne with
  | m :: t, _ =>
    have hm := h m (List.mem_cons_self m t)
    unfold buildGroups
    rw [List.foldl_cons,
      show groupStep ([], []) m = ([(k, [m])], []) from by
        simp [groupStep, hm.1, hm.2, addToGroups],
      foldl_groupStep_const k t [m] (fun q hq => h q (List.mem_cons_of_mem m hq))]
    simp

/-- The conversation-create request that the sync batch grouper issues for a
synthetic group over collection `c` (placeholder role "assistant", empty
content, name "Conversation"). -/
def convPlaceholderCreateReq (c : String) : Request :=
  ⟨"POST", .memories,
   [("collection_ref", .str c), ("engram_type", .str "conversation"),
    ("messages", .list []), ("metadata", .dict []), ("name", .str "Conversation")], false⟩

/-- Evaluating the sync placeholder conversation create against a successful
scripted response. -/
theorem placeholder_create_sync (c convId : String) (hconv : convId ≠ "")
    (rest : List HttpResp) :
    storeMemorySync ⟨c, .str "", some "assistant", none, some [], none, none, none, none⟩
      (some "Conversation")
      ⟨[], ⟨200, some [("results", .dict [("id", .str convId)])]⟩ :: rest⟩ =
      (.ok convId, ⟨[convPlaceholderCreateReq c], rest⟩) := by
  simp only [storeMemorySync]
  rw [if_neg (by simp [strTruthy]), if_pos (by simp [strTruthy])]
  rw [show send ⟨"POST", .memories,
      convCreatePayloadSync ⟨c, .str "", some "assistant", none, some [], none, none, none, none⟩
        (some "Conversation"), false⟩
      ⟨[], ⟨200, some [("results", .dict [("id", .str convId)])]⟩ :: rest⟩ =
      (.ok [("results", .dict [("id", .str convId)])], ⟨[convPlaceholderCreateReq c], rest⟩)
    from rfl]
  simp [dget?, dgetD, pyOr, truthy, hconv, pyStr]

/-- Evaluating the async placeholder conversation create (multipart form)
against a successful scripted response. -/
theorem placeholder_create_async (c convId : String) (hconv : convId ≠ "")
    (rest : List HttpResp) :
    storeMemoryAsync ⟨c, .str "", some "assistant", none, some [], none, none, none, none⟩
      (some "Conversation")
      ⟨[], ⟨200, some [("results", .dict [("engram_id", .str convId)])]⟩ :: rest⟩ =
      (.ok convId,
       ⟨[⟨"POST", .memories,
          [("engram_type", .str "conversation"), ("name", .str "Conversation"),
           ("metadata", .dict []), ("collection_ids", .list [.str c])], true⟩], rest⟩) := by
  simp only [storeMemoryAsync]
  rw [if_neg (by simp [strTruthy]), if_pos (by simp [strTruthy])]
  rw [show sendRaw "Failed to create conversation: "
      ⟨"POST", .memories,
       asyncConvCreateBody ⟨c, .str "", some "assistant", none, some [], none, none, none, none⟩
         (some "Conversation"), true⟩
      ⟨[], ⟨200, some [("results", .dict [("engram_id", .str convId)])]⟩ :: rest⟩ =
      (.ok [("results", .dict [("engram_id", .str convId)])],
       ⟨[⟨"POST", .memories,
          [("engram_type", .str "conversation"), ("name", .str "Conversation"),
           ("metadata", .dict []), ("collection_ids", .list [.str c])], true⟩], rest⟩)
    from rfl]
  simp [dget?, dgetD, pyOr, truthy, hconv, pyStr]

/-- A batch whose requests all share one group key runs as exactly that one
group (sync client). -/
theorem storeMemories_single_group_sync (k : String) (g : List Memory) (st : ClientState)
    (hbg : buildGroups g = ([(k, g)], [])) :
    storeMemoriesSync g st = processGroupSync k g st := by
  unfold storeMemoriesSync
  rw [hbg]
  rcases hpg : processGroupSync k g st with ⟨res, st'⟩
  rcases res with e | ids <;> simp [processGroupsSync, processOthersSync, hpg]

/-- A batch whose requests all share one group key runs as exactly that one
group (async client). -/
theorem storeMemories_single_group_async (k : String) (g : List Memory) (st : ClientState)
    (hbg : buildGroups g = ([(k, g)], [])) :
    storeMemoriesAsync g st = processGroupAsync k g st := by
  unfold storeMemoriesAsync
  rw [hbg]
  rcases hpg : processGroupAsync k g st with ⟨res, st'⟩
  rcases res with e | ids <;> simp [processGroupsAsync, processOthersAsync, hpg]

/-- One synthetic-key group in the sync batch: a create then the single
batched append. -/
theorem processGroupSync_synthetic (c convId : String) (g : List Memory) (resp2 : HttpResp)
    (rest : List HttpResp) (hconv : convId ≠ "") (hg : g ≠ [])
    (hc0 : ∀ m ∈ g, m.collection_id = c) :
    processGroupSync ("__new__::" ++ c) g
      ⟨[], ⟨200, some [("results", .dict [("id", .str convId)])]⟩ :: resp2 :: rest⟩ =
      ((match handleResponse resp2 with
        | .ok _ => .ok (List.replicate g.length convId)
        | .error e => .error e),
       ⟨[convPlaceholderCreateReq c,
         ⟨"POST", .memAppend convId, groupAppendPayloadSync c g, false⟩], rest⟩) := by
  match g, hg with
  | g0 :: grest, _ =>
    unfold processGroupSync
    simp only []
    rw [if_pos (pyStartsWith_marker c), hc0 g0 (List.mem_cons_self g0 grest)]
    rw [placeholder_create_sync c convId hconv (resp2 :: rest)]
    rcases hh : handleResponse resp2 with e | d <;> simp [send, hh]

/-- One real-id group in the sync batch: the single batched append and no
create. -/
theorem processGroupSync_real (c rid : String) (g : List Memory) (resp2 : HttpResp)
    (rest : List HttpResp) (hns : pyStartsWith rid "__new__::" = false) (hg : g ≠ [])
    (hc0 : ∀ m ∈ g, m.collection_id = c) :
    processGroupSync rid g ⟨[], resp2 :: rest⟩ =
      ((match handleResponse resp2 with
        | .ok _ => .ok (List.replicate g.length rid)
        | .error e => .error e),
       ⟨[⟨"POST", .memAppend rid, groupAppendPayloadSync c g, false⟩], rest⟩) := by
  match g, hg with
  | g0 :: grest, _ =>
    unfold processGroupSync
    simp only []
    rw [if_neg (by rw [hns]; simp), hc0 g0 (List.mem_cons_self g0 grest)]
    rcases hh : handleResponse resp2 with e | d <;> simp [send, hh]

/-- One synthetic-key group in the async batch: a multipart create then the
single batched append (through `_append_to_memory`, so a 404 there is
re-interpreted). -/
theorem processGroupAsync_synthetic (c convId : String) (g : List Memory) (resp2 : HttpResp)
    (rest : List HttpResp) (hconv : convId ≠ "") (hg : g ≠ [])
    (hc0 : ∀ m ∈ g, m.collection_id = c) :
    processGroupAsync ("__new__::" ++ c) g
      ⟨[], ⟨200, some [("results", .dict [("engram_id", .str convId)])]⟩ :: resp2 :: rest⟩ =
      ((match handleResponse resp2 with
        | .ok _ => .ok (List.replicate g.length convId)
        | .error e => .error (convert404 convId e)),
       ⟨[⟨"POST", .memories,
          [("engram_type", .str "conversation"), ("name", .str "Conversation"),
           ("metadata", .dict []), ("collection_ids", .list [.str c])], true⟩,
         ⟨"POST", .memAppend convId,
          [("collection_id", .str c), ("messages", .list (g.map batchMsgAsync)),
           ("metadata", .dict [])], false⟩], rest⟩) := by
  match g, hg with
  | g0 :: grest, _ =>
    unfold processGroupAsync
    simp only []
    rw [if_pos (pyStartsWith_marker c), hc0 g0 (List.mem_cons_self g0 grest)]
    rw [placeholder_create_async c convId hconv (resp2 :: rest)]
    rcases hh : handleResponse resp2 with e | d <;>
      simp [appendToMemoryAsync, appendPayloadAsync, send, hh, dset, isDict, batchMsgAsync]

/-- One real-id group in the async batch: the single batched append and no
create. -/
theorem processGroupAsync_real (c rid : String) (g : List Memory) (resp2 : HttpResp)
    (rest : List HttpResp) (hns : pyStartsWith rid "__new__::" = false) (hg : g ≠ [])
    (hc0 : ∀ m ∈ g, m.collection_id = c) :
    processGroupAsync rid g ⟨[], resp2 :: rest⟩ =
      ((match handleResponse resp2 with
        | .ok _ => .ok (List.replicate g.length rid)
        | .error e => .error (convert404 rid e)),
       ⟨[⟨"POST", .memAppend rid,
          [("collection_id", .str c), ("messages", .list (g.map batchMsgAsync)),
           ("metadata", .dict [])], false⟩], rest⟩) := by
  match g, hg with
  | g0 :: grest, _ =>
    unfold processGroupAsync
    simp only []
    rw [if_neg (by rw [hns]; simp), hc0 g0 (List.mem_cons_self g0 grest)]
    rcases hh : handleResponse resp2 with e | d <;>
      simp [appendToMemoryAsync, appendPayloadAsync, send, hh, dset, isDict, batchMsgAsync]

/-- `find?` returns the first element after a prefix of non-matches. -/
theorem find?_append_first {α : Type} (p : α → Bool) (pre : List α) (x : α) (post : List α)
    (hpre : ∀ y ∈ pre, p y = false) (hx : p x = true) :
    (pre ++ x :: post).find? p = some x := by
  induction pre with
  | nil => simp [List.find?_cons, hx]
  | cons a t ih =>
    have ha : p a = false := hpre a (by simp)
    simp only [List.cons_append, List.find?_cons, ha]
    exact ih (fun y hy => hpre y (by simp [hy]))

/-- C6: in `store_memories`, a group of role-bearing requests with no target
id sharing one collection (synthetic key) issues exactly one
create-conversation operation — empty content, placeholder role selecting the
conversation type, name "Conversation" — followed by exactly one batched
append carrying all of the group's contents as messages in input order, and
the group positions all receive the created conversation id; a group of
role-bearing requests sharing a real target id issues exactly one batched
append and no create. Both clients. -/
theorem store_memories_group_operations (c convId rid : String) (g : List Memory)
    (resp2 : HttpResp)
    (hg : g ≠ []) (hconv : convId ≠ "") (hrid : rid ≠ "")
    (hns : pyStartsWith rid "__new__::" = false)
    (hsyn : ∀ m ∈ g, strTruthy m.role = true ∧ strTruthy m.memory_id = false ∧
      m.collection_id = c) :
    ((storeMemoriesSync g
        ⟨[], [⟨200, some [("results", .dict [("id", .str convId)])]⟩, resp2]⟩).2.sent =
      [convPlaceholderCreateReq c,
       ⟨"POST", .memAppend convId, groupAppendPayloadSync c g, false⟩]) ∧
    ((resp2.status = 200 ∨ resp2.status = 202) → ∀ b, resp2.body = some b →
      (storeMemoriesSync g
        ⟨[], [⟨200, some [("results", .dict [("id", .str convId)])]⟩, resp2]⟩).1 =
        .ok (List.replicate g.length convId)) ∧
    (dget? (groupAppendPayloadSync c g) "messages" = some (.list (g.map batchMsgSync))) ∧
    (∀ g2 : List Memory, g2 ≠ [] →
      (∀ m ∈ g2, strTruthy m.role = true ∧ m.memory_id = some rid ∧ m.collection_id = c) →
      ((storeMemoriesSync g2 ⟨[], [resp2]⟩).2.sent =
        [⟨"POST", .memAppend rid, groupAppendPayloadSync c g2, false⟩]) ∧
      ((resp2.status = 200 ∨ resp2.status = 202) → ∀ b, resp2.body = some b →
        (storeMemoriesSync g2 ⟨[], [resp2]⟩).1 = .ok (List.replicate g2.length rid))) ∧
    ((storeMemoriesAsync g
        ⟨[], [⟨200, some [("results", .dict [("engram_id", .str convId)])]⟩, resp2]⟩).2.sent =
      [⟨"POST", .memories,
        [("engram_type", .str "conversation"), ("name", .str "Conversation"),
         ("metadata", .dict []), ("collection_ids", .list [.str c])], true⟩,
       ⟨"POST", .memAppend convId,
        [("collection_id", .str c), ("messages", .list (g.map batchMsgAsync)),
         ("metadata", .dict [])], false⟩]) ∧
    (∀ g2 : List Memory, g2 ≠ [] →
      (∀ m ∈ g2, strTruthy m.role = true ∧ m.memory_id = some rid ∧ m.collection_id = c) →
      (storeMemoriesAsync g2 ⟨[], [resp2]⟩).2.sent =
        [⟨"POST", .memAppend rid,
          [("collection_id", .str c), ("messages", .list (g2.map batchMsgAsync)),
           ("metadata", .dict [])], false⟩]) := by
  have hc0 : ∀ m ∈ g, m.collection_id = c := fun m hm => (hsyn m hm).2.2
  have hkey : ∀ m ∈ g, strTruthy m.role = true ∧ groupKey m = "__new__::" ++ c :=
    fun m hm => ⟨(hsyn m hm).1, by simp [groupKey, (hsyn m hm).2.1, (hsyn m hm).2.2]⟩
  have hbg := buildGroups_single ("__new__::" ++ c) g hkey hg
  have hkey2 : ∀ (g2 : List Memory),
      (∀ m ∈ g2, strTruthy m.role = true ∧ m.memory_id = some rid ∧ m.collection_id = c) →
      ∀ m ∈ g2, strTruthy m.role = true ∧ groupKey m = rid := by
    intro g2 h2 m hm
    refine ⟨(h2 m hm).1, ?_⟩
    simp [groupKey, (h2 m hm).2.1, strTruthy, hrid]
  refine ⟨?_, ?_, ?_, ?_, ?_, ?_⟩
  · rw [storeMemories_single_group_sync _ g _ hbg,
      processGroupSync_synthetic c convId g resp2 [] hconv hg hc0]
  · intro hst b hb
    have hok : handleResponse resp2 = .ok b := by
      unfold handleResponse
      rw [if_pos hst, hb]
    rw [storeMemories_single_group_sync _ g _ hbg,
      processGroupSync_synthetic c convId g resp2 [] hconv hg hc0]
    simp [hok]
  · unfold groupAppendPayloadSync
    rcases firstVision g with _ | v <;> rcases firstAudio g with _ | a <;>
      rcases firstFast g with _ | b <;>
      simp [dget?_dset_ne _ _ _ _ (by decide : ("fast_mode" : String) ≠ "messages"),
        dget?_dset_ne _ _ _ _ (by decide : ("audio_model" : String) ≠ "messages"),
        dget?_dset_ne _ _ _ _ (by decide : ("vision_model" : String) ≠ "messages"), dget?]
  · intro g2 hg2 hmem
    have hc02 : ∀ m ∈ g2, m.collection_id = c := fun m hm => (hmem m hm).2.2
    have hbg2 := buildGroups_single rid g2 (hkey2 g2 hmem) hg2
    constructor
    · rw [storeMemories_single_group_sync _ g2 _ hbg2,
        processGroupSync_real c rid g2 resp2 [] hns hg2 hc02]
    · intro hst b hb
      have hok : handleResponse resp2 = .ok b := by
        unfold handleResponse
        rw [if_pos hst, hb]
      rw [storeMemories_single_group_sync _ g2 _ hbg2,
        processGroupSync_real c rid g2 resp2 [] hns hg2 hc02]
      simp [hok]
  · rw [storeMemories_single_group_async _ g _ hbg,
      processGroupAsync_synthetic c convId g resp2 [] hconv hg hc0]
  · intro g2 hg2 hmem
    have hc02 : ∀ m ∈ g2, m.collection_id = c := fun m hm => (hmem m hm).2.2
    have hbg2 := buildGroups_single rid g2 (hkey2 g2 hmem) hg2
    rw [storeMemories_single_group_async _ g2 _ hbg2,
      processGroupAsync_real c rid g2 resp2 [] hns hg2 hc02]

/-- Witness for C6: a concrete two-message synthetic group issues create then
one batched two-message append and returns the conversation id twice; a
concrete real-id group issues one append only. -/
theorem store_memories_group_operations_witness :
    ((storeMemoriesSync
        [⟨"c1", .str "a", some "user", none, some [], none, none, none, none⟩,
         ⟨"c1", .str "b", some "assistant", none, some [], none, none, none, none⟩]
        ⟨[], [⟨200, some [("results", .dict [("id", .str "CONV")])]⟩, ⟨200, some []⟩]⟩).2.sent =
      [convPlaceholderCreateReq "c1",
       ⟨"POST", .memAppend "CONV", groupAppendPayloadSync "c1"
         [⟨"c1", .str "a", some "user", none, some [], none, none, none, none⟩,
          ⟨"c1", .str "b", some "assistant", none, some [], none, none, none, none⟩], false⟩]) ∧
    ((storeMemoriesSync
        [⟨"c1", .str "a", some "user", none, some [], none, none, none, none⟩,
         ⟨"c1", .str "b", some "assistant", none, some [], none, none, none, none⟩]
        ⟨[], [⟨200, some [("results", .dict [("id", .str "CONV")])]⟩, ⟨200, some []⟩]⟩).1 =
      .ok ["CONV", "CONV"]) ∧
    ((storeMemoriesSync
        [⟨"c1", .str "a", some "user", some "m9", some [], none, none, none, none⟩]
        ⟨[], [⟨200, some []⟩]⟩).2.sent =
      [⟨"POST", .memAppend "m9", groupAppendPayloadSync "c1"
        [⟨"c1", .str "a", some "user", some "m9", some [], none, none, none, none⟩], false⟩]) := by
  refine ⟨?_, ?_, ?_⟩
  · exact (store_memories_group_operations "c1" "CONV" "m9"
      [⟨"c1", .str "a", some "user", none, some [], none, none, none, none⟩,
       ⟨"c1", .str "b", some "assistant", none, some [], none, none, none, none⟩]
      ⟨200, some []⟩ (by simp) (by decide) (by decide) (by decide)
      (by intro m hm; fin_cases hm <;> exact ⟨rfl, rfl, rfl⟩)).1
  · exact ((store_memories_group_operations "c1" "CONV" "m9"
      [⟨"c1", .str "a", some "user", none, some [], none, none, none, none⟩,
       ⟨"c1", .str "b", some "assistant", none, some [], none, none, none, none⟩]
      ⟨200, some []⟩ (by simp) (by decide) (by decide) (by decide)
      (by intro m hm; fin_cases hm <;> exact ⟨rfl, rfl, rfl⟩)).2.1 (Or.inl rfl) [] rfl)
  · exact ((store_memories_group_operations "c1" "CONV" "m9"
      [⟨"c1", .str "a", some "user", none, some [], none, none, none, none⟩,
       ⟨"c1", .str "b", some "assistant", none, some [], none, none, none, none⟩]
      ⟨200, some []⟩ (by simp) (by decide) (by decide) (by decide)
      (by intro m hm; fin_cases hm <;> exact ⟨rfl, rfl, rfl⟩)).2.2.2.1
      [⟨"c1", .str "a", some "user", some "m9", some [], none, none, none, none⟩]
      (by simp) (by intro m hm; fin_cases hm; exact ⟨rfl, rfl, rfl⟩)).1

/-- C9: in `store_memories`, each of the vision-model, audio-model and
fast-extraction options of a group's single batched append payload is taken
from the first member in input order that set it (a non-empty string for the
model options, any non-None value — including False — for fast mode); when no
member sets an option the key is absent; and the per-message dicts of the
batched append never carry these option keys, so a later member's option
applies to the whole group and per-member overrides are never sent. -/
theorem store_memories_group_option_selection (c : String) (g : List Memory) :
    (∀ (pre post : List Memory) (m : Memory) (v : String),
      g = pre ++ m :: post →
      (∀ m2 ∈ pre, strTruthy m2.vision_model = false) →
      m.vision_model = some v → v ≠ "" →
      dget? (groupAppendPayloadSync c g) "vision_model" = some (.str v)) ∧
    (∀ (pre post : List Memory) (m : Memory) (a : String),
      g = pre ++ m :: post →
      (∀ m2 ∈ pre, strTruthy m2.audio_model = false) →
      m.audio_model = some a → a ≠ "" →
      dget? (groupAppendPayloadSync c g) "audio_model" = some (.str a)) ∧
    (∀ (pre post : List Memory) (m : Memory) (b : Bool),
      g = pre ++ m :: post →
      (∀ m2 ∈ pre, m2.fast_mode = none) →
      m.fast_mode = some b →
      dget? (groupAppendPayloadSync c g) "fast_mode" = some (.bool b)) ∧
    ((∀ m2 ∈ g, strTruthy m2.vision_model = false) →
      dget? (groupAppendPayloadSync c g) "vision_model" = none) ∧
    ((∀ m2 ∈ g, strTruthy m2.audio_model = false) →
      dget? (groupAppendPayloadSync c g) "audio_model" = none) ∧
    ((∀ m2 ∈ g, m2.fast_mode = none) →
      dget? (groupAppendPayloadSync c g) "fast_mode" = none) ∧
    (∀ msg ∈ g.map batchMsgSync, ∀ km, msg = .dict km →
      dget? km "vision_model" = none ∧ dget? km "audio_model" = none ∧
      dget? km "fast_mode" = none) := by
  refine ⟨?_, ?_, ?_, ?_, ?_, ?_, ?_⟩
  · intro pre post m v hgeq hpre hmv hv
    have hfv : firstVision g = some v := by
      unfold firstVision
      rw [hgeq, find?_append_first _ pre m post hpre (by rw [hmv]; exact strTruthy_some v hv)]
      exact hmv
    unfold groupAppendPayloadSync
    rw [hfv]
    rcases firstAudio g with _ | a <;> rcases firstFast g with _ | b <;>
      simp [dget?_dset_self,
        dget?_dset_ne _ _ _ _ (by decide : ("fast_mode" : String) ≠ "vision_model"),
        dget?_dset_ne _ _ _ _ (by decide : ("audio_model" : String) ≠ "vision_model")]
  · intro pre post m a hgeq hpre hma ha
    have hfa : firstAudio g = some a := by
      unfold firstAudio
      rw [hgeq, find?_append_first _ pre m post hpre (by rw [hma]; exact strTruthy_some a ha)]
      exact hma
    unfold groupAppendPayloadSync
    rw [hfa]
    rcases firstVision g with _ | v <;> rcases firstFast g with _ | b <;>
      simp [dget?_dset_self,
        dget?_dset_ne _ _ _ _ (by decide : ("fast_mode" : String) ≠ "audio_model")]
  · intro pre post m b hgeq hpre hmb
    have hfb : firstFast g = some b := by
      unfold firstFast
      rw [hgeq, find?_append_first _ pre m post
        (fun y hy => by simp [hpre y hy]) (by rw [hmb]; rfl)]
      exact hmb
    unfold groupAppendPayloadSync
    rw [hfb]
    rcases firstVision g with _ | v <;> rcases firstAudio g with _ | a <;>
      simp [dget?_dset_self]
  · intro hall
    have hfv : firstVision g = none := by
      unfold firstVision
      rw [List.find?_eq_none.mpr (fun m2 hm2 => by simp [hall m2 hm2])]
    unfold groupAppendPayloadSync
    rw [hfv]
    rcases firstAudio g with _ | a <;> rcases firstFast g with _ | b <;>
      simp [dget?,
        dget?_dset_ne _ _ _ _ (by decide : ("fast_mode" : String) ≠ "vision_model"),
        dget?_dset_ne _ _ _ _ (by decide : ("audio_model" : String) ≠ "vision_model")]
  · intro hall
    have hfa : firstAudio g = none := by
      unfold firstAudio
      rw [List.find?_eq_none.mpr (fun m2 hm2 => by simp [hall m2 hm2])]
    unfold groupAppendPayloadSync
    rw [hfa]
    rcases firstVision g with _ | v <;> rcases firstFast g with _ | b <;>
      simp [dget?,
        dget?_dset_ne _ _ _ _ (by decide : ("fast_mode" : String) ≠ "audio_model"),
        dget?_dset_ne _ _ _ _ (by decide : ("vision_model" : String) ≠ "audio_model")]
  · intro hall
    have hfb : firstFast g = none := by
      unfold firstFast
      rw [List.find?_eq_none.mpr (fun m2 hm2 => by simp [hall m2 hm2])]
    unfold groupAppendPayloadSync
    rw [hfb]
    rcases firstVision g with _ | v <;> rcases firstAudio g with _ | a <;>
      simp [dget?,
        dget?_dset_ne _ _ _ _ (by decide : ("audio_model" : String) ≠ "fast_mode"),
        dget?_dset_ne _ _ _ _ (by decide : ("vision_model" : String) ≠ "fast_mode")]
  · intro msg hmsg km hkm
    rcases List.mem_map.mp hmsg with ⟨m2, _, heq⟩
    rw [← heq] at hkm
    unfold batchMsgSync at hkm
    injection hkm with h
    rw [← h]
    exact ⟨rfl, rfl, rfl⟩

/-- Witness for C9: in a two-member group where only the second member sets
vision model, audio model and fast mode (the latter to False), the batched
append carries exactly those values; in a group setting none of them the keys
are absent; and a member dict holds only content, role and metadata. -/
theorem store_memories_group_option_selection_witness :
    (dget? (groupAppendPayloadSync "c1"
      [⟨"c1", .str "a", some "user", none, none, none, none, none, none⟩,
       ⟨"c1", .str "b", some "user", none, none, none, some "gpt-vis", some "whisper",
        some false⟩]) "vision_model" = some (.str "gpt-vis")) ∧
    (dget? (groupAppendPayloadSync "c1"
      [⟨"c1", .str "a", some "user", none, none, none, none, none, none⟩,
       ⟨"c1", .str "b", some "user", none, none, none, some "gpt-vis", some "whisper",
        some false⟩]) "audio_model" = some (.str "whisper")) ∧
    (dget? (groupAppendPayloadSync "c1"
      [⟨"c1", .str "a", some "user", none, none, none, none, none, none⟩,
       ⟨"c1", .str "b", some "user", none, none, none, some "gpt-vis", some "whisper",
        some false⟩]) "fast_mode" = some (.bool false)) ∧
    (dget? (groupAppendPayloadSync "c1"
      [⟨"c1", .str "a", some "user", none, none, none, none, none, none⟩]) "vision_model" =
      none) ∧
    (dget? [("content", .str "a"), ("role", .str "user"), ("metadata", .dict [])]
      "vision_model" = none) := by
  refine ⟨?_, ?_, ?_, ?_, by decide⟩
  · exact (store_memories_group_option_selection "c1" _).1
      [⟨"c1", .str "a", some "user", none, none, none, none, none, none⟩] []
      ⟨"c1", .str "b", some "user", none, none, none, some "gpt-vis", some "whisper",
       some false⟩ "gpt-vis" rfl
      (by intro m2 hm2; fin_cases hm2; rfl) rfl (by decide)
  · exact (store_memories_group_option_selection "c1" _).2.1
      [⟨"c1", .str "a", some "user", none, none, none, none, none, none⟩] []
      ⟨"c1", .str "b", some "user", none, none, none, some "gpt-vis", some "whisper",
       some false⟩ "whisper" rfl
      (by intro m2 hm2; fin_cases hm2; rfl) rfl (by decide)
  · exact (store_memories_group_option_selection "c1" _).2.2.1
      [⟨"c1", .str "a", some "user", none, none, none, none, none, none⟩] []
      ⟨"c1", .str "b", some "user", none, none, none, some "gpt-vis", some "whisper",
       some false⟩ false rfl
      (by intro m2 hm2; fin_cases hm2; rfl) rfl
  · exact (store_memories_group_option_selection "c1" _).2.2.2.1
      (by intro m2 hm2; fin_cases hm2; rfl)

theorem dgetD_dset_ne (d : Dict) (k j : String) (v dflt : PVal) (h : j ≠ k) :
    dgetD (dset d j v) k dflt = dgetD d k dflt := by
  unfold dgetD
  rw [dget?_dset_ne _ _ _ _ h]

theorem dgetD_dset_self (d : Dict) (k : String) (v dflt : PVal) :
    dgetD (dset d k v) k dflt = v := by
  unfold dgetD
  rw [dget?_dset_self]
  rfl

/-- Setting a key other than `chunks` does not change the parsed chunk list. -/
theorem parseChunks_dset_ne (d : Dict) (j : String) (v : PVal) (h : j ≠ "chunks") :
    parseChunks (dset d j v) = parseChunks d := by
  unfold parseChunks
  rw [dget?_dset_ne _ _ _ _ h]

/-- The in-place metadata mutation of `from_dict` is idempotent: feeding the
mutated metadata back through the same mutation reproduces it. -/
theorem metaWith_idem (engramId engramMeta metadata0 metaF : PVal)
    (hnd : ∀ em, engramMeta = PVal.dict em → (em.map Prod.fst).Nodup)
    (h : metaWith engramId engramMeta metadata0 = some metaF) :
    metaWith engramId engramMeta metaF = some metaF := by
  by_cases h1 : truthy engramId = true
  · by_cases h2 : truthy engramMeta = true
    · cases metadata0 <;> cases engramMeta <;> simp [metaWith, h1, h2] at h ⊢
      rename_i md em
      subst h
      simp only []
      have hnodup : (em.map Prod.fst).Nodup := hnd em rfl
      have hhasD : dhas (dupdate (dset md "engram_id" engramId) em) "engram_id" = true :=
        dhas_dupdate_of em _ _ (dhas_dset_self md _ engramId)
      by_cases hmem : ∃ w, ("engram_id", w) ∈ em
      · rw [dupdate_dset_absorb em _ "engram_id" engramId hhasD hmem,
          dupdate_idem _ em hnodup]
      · have hne : ∀ p ∈ em, p.1 ≠ "engram_id" := by
          intro p hp hpe
          exact hmem ⟨p.2, by rw [← hpe]; exact hp⟩
        have hD : dget? (dupdate (dset md "engram_id" engramId) em) "engram_id" =
            some engramId := by
          rw [dget?_dupdate_not_mem em _ _ hne, dget?_dset_self]
        rw [dset_eq_of_dget? _ _ _ hD, dupdate_idem _ em hnodup]
    · cases metadata0 <;> simp [metaWith, h1, h2] at h ⊢
      rename_i md
      subst h
      simp only []
      rw [dset_dset_self]
  · by_cases h2 : truthy engramMeta = true
    · cases metadata0 <;> cases engramMeta <;> simp [metaWith, h1, h2] at h ⊢
      rename_i md em
      subst h
      simp only []
      rw [dupdate_idem md em (hnd em rfl)]
    · simp [metaWith, h1, h2] at h ⊢

/-- C8: applying the Response Mapper a second time, to the dictionary as the
first application left it, yields the identical read model (the mapper
mutates its argument, so "the same dictionary" the second call sees is the
post-mutation one); the engram-metadata nodup hypothesis reflects JSON object
keys. -/
theorem from_dict_idempotent (data : Dict) (r1 : MemoryResponseM) (d1 : Dict)
    (hnd : ∀ em, dget? data "engram_metadata" = some (PVal.dict em) →
      (em.map Prod.fst).Nodup)
    (h : fromDict data = some (r1, d1)) :
    ∃ d2, fromDict d1 = some (r1, d2) := by
  have h0 := h
  unfold fromDict at h
  simp only [] at h
  rcases hmw : metaWith (dgetD data "engram_id" PVal.null)
      (dgetD data "engram_metadata" PVal.null)
      (dgetD data "metadata" (PVal.dict [])) with _ | metaF
  · rw [hmw] at h
    simp at h
  · rw [hmw] at h
    simp only [] at h
    injection h with h
    injection h with hr hd
    have hnd' : ∀ em, dgetD data "engram_metadata" PVal.null = PVal.dict em →
        (em.map Prod.fst).Nodup := by
      intro em hem
      unfold dgetD at hem
      rcases hq : dget? data "engram_metadata" with _ | v
      · rw [hq] at hem
        exact absurd hem (by simp)
      · rw [hq] at hem
        simp only [Option.getD_some] at hem
        exact hnd em (hem ▸ hq)
    by_cases hhas : dhas data "metadata" = true
    · rw [if_pos hhas] at hd
      subst hr
      subst hd
      refine Exists.intro (dset (dset data "metadata" metaF) "metadata" metaF) ?_
      unfold fromDict
      simp only []
      rw [dgetD_dset_ne _ _ _ _ _ (by decide : ("metadata" : String) ≠ "id"),
        dgetD_dset_ne _ _ _ _ _ (by decide : ("metadata" : String) ≠ "content"),
        dgetD_dset_ne _ _ _ _ _ (by decide : ("metadata" : String) ≠ "text"),
        parseChunks_dset_ne _ _ _ (by decide : ("metadata" : String) ≠ "chunks"),
        dgetD_dset_self,
        dgetD_dset_ne _ _ _ _ _ (by decide : ("metadata" : String) ≠ "collection_ids"),
        dgetD_dset_ne _ _ _ _ _ (by decide : ("metadata" : String) ≠ "engram_id"),
        dgetD_dset_ne _ _ _ _ _ (by decide : ("metadata" : String) ≠ "engram_metadata"),
        dgetD_dset_ne _ _ _ _ _ (by decide : ("metadata" : String) ≠ "created_at"),
        dgetD_dset_ne _ _ _ _ _ (by decide : ("metadata" : String) ≠ "updated_at"),
        metaWith_idem _ _ _ _ hnd' hmw]
      simp only []
      rw [if_pos (dhas_dset_self data "metadata" metaF)]
    · rw [if_neg hhas] at hd
      rw [hd] at h0
      exact ⟨d1, h0⟩

/-- Witness for C8: a concrete payload with id fallback, metadata mutation and
engram-metadata merge maps to the same read model on a second application. -/
theorem from_dict_idempotent_witness :
    fromDict [("id", .str ""), ("metadata", .dict [("a", .str "x")]),
              ("engram_id", .str "E"), ("engram_metadata", .dict [("b", .int 2)]),
              ("content", .str "hello")] =
      some ({ id := .str "E", content := .str "hello", chunks := none,
              metadata := .dict [("a", .str "x"), ("engram_id", .str "E"), ("b", .int 2)],
              collection_ids := .list [], created_at := none, updated_at := none },
            [("id", .str ""),
             ("metadata", .dict [("a", .str "x"), ("engram_id", .str "E"), ("b", .int 2)]),
             ("engram_id", .str "E"), ("engram_metadata", .dict [("b", .int 2)]),
             ("content", .str "hello")]) ∧
    (∃ d2, fromDict
      [("id", .str ""),
       ("metadata", .dict [("a", .str "x"), ("engram_id", .str "E"), ("b", .int 2)]),
       ("engram_id", .str "E"), ("engram_metadata", .dict [("b", .int 2)]),
       ("content", .str "hello")] =
      some ({ id := .str "E", content := .str "hello", chunks := none,
              metadata := .dict [("a", .str "x"), ("engram_id", .str "E"), ("b", .int 2)],
              collection_ids := .list [], created_at := none, updated_at := none }, d2)) := by
  refine ⟨rfl, ?_⟩
  exact from_dict_idempotent
    [("id", .str ""), ("metadata", .dict [("a", .str "x")]),
     ("engram_id", .str "E"), ("engram_metadata", .dict [("b", .int 2)]),
     ("content", .str "hello")] _ _
    (by
      intro em hem
      rw [show dget? [("id", PVal.str ""), ("metadata", PVal.dict [("a", PVal.str "x")]),
            ("engram_id", PVal.str "E"), ("engram_metadata", PVal.dict [("b", PVal.int 2)]),
            ("content", PVal.str "hello")] "engram_metadata" =
          some (PVal.dict [("b", PVal.int 2)]) from rfl] at hem
      injection hem with h1
      injection h1 with h2
      rw [← h2]
      decide)
    rfl

end Nebula
